import Mathlib

/-!
Verification development for the Fieldwork repository
(scripts/greenhouse_import.py and scripts/wayback_greenhouse.py).

The Python enrichment pipeline is embedded shallowly:
* regular expressions are hand-compiled into token lists (`RTok`) interpreted
  by a small matching engine (`matchToks` / `reSearch` for `re.search`,
  `findAll` for `re.findall`); each compiled pattern constant carries the
  original regex in a comment,
* Python floats are modelled as rationals,
* the SQLite tables touched by `import_to_db` are modelled as lists of rows
  in a `DBState` record.
-/

set_option maxRecDepth 10000

namespace Fieldwork

/-- ASCII word character: the `\w` class of Python `re` (ASCII fragment;
all patterns and all inputs of interest in this development are ASCII). -/
def isWordChar (c : Char) : Bool :=
  c.isAlphanum || c == '_'

/-- Word-boundary test (`\b`) between the previously consumed character and
the upcoming input. -/
def wbAt (prev : Option Char) (cs : List Char) : Bool :=
  let l := match prev with
    | none => false
    | some c => isWordChar c
  let r := match cs with
    | [] => false
    | c :: _ => isWordChar c
  l != r

/-- Tokens of the hand-compiled regular expressions.  `cls` consumes one
character of a class, `star` zero or more (with backtracking), `optCls` an
optional single character, `optStr` an optional literal string, `wb` is the
zero-width `\b` assertion and `neg cls? word` a negative lookahead
`(?!C*word)` with an optional repeated class `C` in front of a literal —
the shape of all three lookaheads occurring in the repository
(`(?!script)`, `(?!ation)`, `(?![\s-]*native)`). -/
inductive RTok where
  | cls : (Char → Bool) → RTok
  | star : (Char → Bool) → RTok
  | optCls : (Char → Bool) → RTok
  | optStr : List Char → RTok
  | wb : RTok
  | neg : Option (Char → Bool) → List Char → RTok

/-- Case-insensitive comparison of a literal pattern string against the
beginning of the input. -/
def ciPre : List Char → List Char → Bool
  | [], _ => true
  | _ :: _, [] => false
  | a :: s, c :: cs => (a.toLower == c.toLower) && ciPre s cs

/-- Last input character consumed by an `optStr` of length `s.length`,
falling back to the incoming previous character. -/
def lastCharOf (s cs : List Char) (prev : Option Char) : Option Char :=
  match (cs.take s.length).getLast? with
  | some c => some c
  | none => prev

/-- Does `C*word` match at the current position, for the lookahead body
`neg (some C) word`?  Tries every number of repetitions of `C`. -/
def negStarMatch (p : Char → Bool) (w : List Char) : List Char → Bool
  | [] => ciPre w []
  | c :: cs => ciPre w (c :: cs) || (p c && negStarMatch p w cs)

/-- Does the body of a negative lookahead match at the current position? -/
def negLookAt (op : Option (Char → Bool)) (w : List Char) (cs : List Char) : Bool :=
  match op with
  | none => ciPre w cs
  | some p => negStarMatch p w cs

/-- Fueled backtracking matcher: does the token list match a prefix of the
input?  Literal characters are compared case-insensitively (all patterns of
the repository are either compiled with `re.IGNORECASE` or applied to text
that was lowercased first, and their literals are lowercase, so this is
faithful in both situations).  Every recursive call strictly decreases
`toks.length + cs.length`, so the fuel supplied by `matchToks` below is
never exhausted. -/
def mtF : Nat → List RTok → Option Char → List Char → Bool
  | 0, _, _, _ => false
  | fuel + 1, toks, prev, cs =>
    match toks with
    | [] => true
    | RTok.cls p :: rest =>
      match cs with
      | c :: cs2 => p c && mtF fuel rest (some c) cs2
      | [] => false
    | RTok.wb :: rest => wbAt prev cs && mtF fuel rest prev cs
    | RTok.optCls p :: rest =>
      (match cs with
       | c :: cs2 => (p c && mtF fuel rest (some c) cs2) || mtF fuel rest prev cs
       | [] => mtF fuel rest prev cs)
    | RTok.optStr s :: rest =>
      (ciPre s cs && mtF fuel rest (lastCharOf s cs prev) (cs.drop s.length)) ||
        mtF fuel rest prev cs
    | RTok.star p :: rest =>
      mtF fuel rest prev cs ||
        (match cs with
         | c :: cs2 => p c && mtF fuel (RTok.star p :: rest) (some c) cs2
         | [] => false)
    | RTok.neg op w :: rest => !negLookAt op w cs && mtF fuel rest prev cs

/-- Match of a token list at the current position (prefix match, the rest of
the input is ignored), as in an anchored attempt of `re.search`. -/
def matchToks (toks : List RTok) (prev : Option Char) (cs : List Char) : Bool :=
  mtF (toks.length + cs.length + 1) toks prev cs

/-- The fueled matcher does not depend on the fuel once that exceeds
`toks.length + cs.length`: every recursive step strictly decreases this
measure, so the fuel chosen by `matchToks` is always sufficient and the
matcher computes the fuel-free backtracking semantics. -/
theorem mtF_congr :
    ∀ (ab a b : Nat) (toks : List RTok) (prev : Option Char) (cs : List Char),
      a + b ≤ ab → toks.length + cs.length < a → toks.length + cs.length < b →
      mtF a toks prev cs = mtF b toks prev cs := by
  intro ab
  induction ab with
  | zero =>
    intro a b toks prev cs hab ha hb
    omega
  | succ n ih =>
    intro a b toks prev cs hab ha hb
    cases a with
    | zero => omega
    | succ a2 =>
      cases b with
      | zero => omega
      | succ b2 =>
        cases toks with
        | nil => rfl
        | cons t rest =>
          simp only [List.length_cons] at ha hb
          cases t with
          | cls p =>
            cases cs with
            | nil => rfl
            | cons c cs2 =>
              simp only [List.length_cons] at ha hb
              show (p c && mtF a2 rest (some c) cs2) = (p c && mtF b2 rest (some c) cs2)
              rw [ih a2 b2 rest (some c) cs2 (by omega) (by omega) (by omega)]
          | wb =>
            show (wbAt prev cs && mtF a2 rest prev cs) = (wbAt prev cs && mtF b2 rest prev cs)
            rw [ih a2 b2 rest prev cs (by omega) (by omega) (by omega)]
          | optCls p =>
            cases cs with
            | nil =>
              show mtF a2 rest prev [] = mtF b2 rest prev []
              rw [ih a2 b2 rest prev [] (by omega) (by simp; omega) (by simp; omega)]
            | cons c cs2 =>
              simp only [List.length_cons] at ha hb
              show ((p c && mtF a2 rest (some c) cs2) || mtF a2 rest prev (c :: cs2))
                  = ((p c && mtF b2 rest (some c) cs2) || mtF b2 rest prev (c :: cs2))
              rw [ih a2 b2 rest (some c) cs2 (by omega) (by omega) (by omega),
                ih a2 b2 rest prev (c :: cs2) (by omega) (by simp; omega) (by simp; omega)]
          | optStr s =>
            show (ciPre s cs && mtF a2 rest (lastCharOf s cs prev) (cs.drop s.length) ||
                mtF a2 rest prev cs)
              = (ciPre s cs && mtF b2 rest (lastCharOf s cs prev) (cs.drop s.length) ||
                mtF b2 rest prev cs)
            rw [ih a2 b2 rest (lastCharOf s cs prev) (cs.drop s.length) (by omega)
                (by simp; omega) (by simp; omega),
              ih a2 b2 rest prev cs (by omega) (by omega) (by omega)]
          | star p =>
            cases cs with
            | nil =>
              show (mtF a2 rest prev [] || false) = (mtF b2 rest prev [] || false)
              rw [ih a2 b2 rest prev [] (by omega) (by simp; omega) (by simp; omega)]
            | cons c cs2 =>
              simp only [List.length_cons] at ha hb
              show (mtF a2 rest prev (c :: cs2) ||
                  (p c && mtF a2 (RTok.star p :: rest) (some c) cs2))
                = (mtF b2 rest prev (c :: cs2) ||
                  (p c && mtF b2 (RTok.star p :: rest) (some c) cs2))
              rw [ih a2 b2 rest prev (c :: cs2) (by omega) (by simp; omega) (by simp; omega),
                ih a2 b2 (RTok.star p :: rest) (some c) cs2 (by omega) (by simp; omega)
                  (by simp; omega)]
          | neg op w =>
            show (!negLookAt op w cs && mtF a2 rest prev cs)
                = (!negLookAt op w cs && mtF b2 rest prev cs)
            rw [ih a2 b2 rest prev cs (by omega) (by omega) (by omega)]

/-- Every sufficient fuel computes `matchToks`. -/
theorem mtF_eq_matchToks (f : Nat) (toks : List RTok) (prev : Option Char) (cs : List Char)
    (h : toks.length + cs.length < f) : mtF f toks prev cs = matchToks toks prev cs :=
  mtF_congr (f + (toks.length + cs.length + 1)) f (toks.length + cs.length + 1) toks prev cs
    (le_refl _) h (by omega)

/-- `re.search` over a pattern given as a list of top-level alternatives:
try every starting position from the left, at each position every
alternative in order.  Only the existence of a match is needed, which does
not depend on the order. -/
def searchFrom (alts : List (List RTok)) : Option Char → List Char → Bool
  | prev, [] => alts.any fun a => matchToks a prev []
  | prev, c :: cs =>
    (alts.any fun a => matchToks a prev (c :: cs)) || searchFrom alts (some c) cs

/-- Boolean `re.search pattern text`. -/
def reSearch (alts : List (List RTok)) (s : String) : Bool :=
  searchFrom alts none s.data

/-- Deterministic matcher returning the number of characters consumed; it is
used for `re.findall` and only supports the `cls`/`wb` tokens, which are the
only tokens occurring in the AI vocabulary patterns (each alternative there
is a literal phrase, so the consumed length is unique). -/
def matchLen : List RTok → Option Char → List Char → Option Nat
  | [], _, _ => some 0
  | RTok.cls p :: rest, _, c :: cs =>
    if p c then (matchLen rest (some c) cs).map (· + 1) else none
  | RTok.cls _ :: _, _, [] => none
  | RTok.wb :: rest, prev, cs =>
    if wbAt prev cs then matchLen rest prev cs else none
  | _, _, _ => none

/-- First alternative matching at the current position, together with its
group flag (does the alternative lie inside the capturing group?) and the
number of consumed characters. -/
def tryAlts (alts : List (Bool × List RTok)) (prev : Option Char) (cs : List Char) :
    Option (Bool × Nat) :=
  match alts with
  | [] => none
  | (g, a) :: rest =>
    match matchLen a prev cs with
    | some n => some (g, n)
    | none => tryAlts rest prev cs

/-- Fueled worker for `re.findall`: scan left to right, record the text
captured by the group of the first matching alternative (the empty string
when the matching alternative lies outside the group, exactly as
`re.findall` reports a non-participating group), resume after the match.
The fuel `cs.length + 1` is sufficient since every step consumes at least
one input character. -/
def faF (alts : List (Bool × List RTok)) : Nat → Option Char → List Char → List String
  | 0, _, _ => []
  | _ + 1, _, [] => []
  | fuel + 1, prev, c :: cs =>
    match tryAlts alts prev (c :: cs) with
    | some (g, n) =>
      let taken := (c :: cs).take (max n 1)
      let cap := if g then String.mk ((c :: cs).take n) else ""
      cap :: faF alts fuel (lastCharOf taken (c :: cs) prev) ((c :: cs).drop (max n 1))
    | none => faF alts fuel (some c) cs

/-- `re.findall pattern text` for the AI vocabulary pattern, returning the
list of captured group texts in match order. -/
def findAll (alts : List (Bool × List RTok)) (s : String) : List String :=
  faF alts (s.data.length + 1) none s.data

/-- The findall worker likewise does not depend on its fuel once that
exceeds `cs.length`: each step either moves one character to the right or
skips past a match of at least one character, so the fuel chosen by
`findAll` is always sufficient. -/
theorem faF_congr (alts : List (Bool × List RTok)) :
    ∀ (ab a b : Nat) (prev : Option Char) (cs : List Char),
      a + b ≤ ab → cs.length < a → cs.length < b →
      faF alts a prev cs = faF alts b prev cs := by
  intro ab
  induction ab with
  | zero =>
    intro a b prev cs hab ha hb
    omega
  | succ n ih =>
    intro a b prev cs hab ha hb
    cases a with
    | zero => omega
    | succ a2 =>
      cases b with
      | zero => omega
      | succ b2 =>
        cases cs with
        | nil => rfl
        | cons c cs2 =>
          simp only [List.length_cons] at ha hb
          unfold faF
          cases htry : tryAlts alts prev (c :: cs2) with
          | none =>
            exact ih a2 b2 (some c) cs2 (by omega) (by omega) (by omega)
          | some gn =>
            obtain ⟨g, n2⟩ := gn
            dsimp only
            congr 1
            exact ih a2 b2
              (lastCharOf ((c :: cs2).take (max n2 1)) (c :: cs2) prev)
              ((c :: cs2).drop (max n2 1)) (by omega)
              (by simp only [List.length_drop, List.length_cons]; omega)
              (by simp only [List.length_drop, List.length_cons]; omega)

/-- A literal pattern character (case-insensitive, see `mtF`). -/
def lit (c : Char) : RTok :=
  RTok.cls fun x => x.toLower == c.toLower

/-- A literal pattern string. -/
def lits (s : String) : List RTok :=
  s.data.map lit

/-- A word-boundary-delimited literal: `\b…\b`. -/
def word (s : String) : List RTok :=
  [RTok.wb] ++ lits s ++ [RTok.wb]

/-- Python whitespace (the ASCII fragment of `str.strip` / the `\s`
class): space, tab, newline, carriage return, vertical tab, form feed. -/
def pyWs (c : Char) : Bool :=
  c == ' ' || c == '\t' || c == '\n' || c == '\r' || c == '\x0b' || c == '\x0c'

/-- The `\s*` token. -/
def wsStar : RTok :=
  RTok.star pyWs

/-- The `.` character class of Python `re` (anything but a newline). -/
def anyCh : Char → Bool :=
  fun c => c != '\n'

/-!
## Python string primitives

The Python `str` methods used by the scripts, modelled directly on the
character list of a string (`lower`/`upper` are the ASCII fragment, which
covers every table entry and pattern literal of the repository).
-/

/-- `s.lower()`. -/
def pyLower (s : String) : String :=
  String.mk (s.data.map Char.toLower)

/-- `s.upper()`. -/
def pyUpper (s : String) : String :=
  String.mk (s.data.map Char.toUpper)

/-- `s.strip()`. -/
def pyStrip (s : String) : String :=
  String.mk (((s.data.dropWhile pyWs).reverse.dropWhile pyWs).reverse)

/-- `s.split(sep)` for a one-character separator (the only form the scripts
use); like Python, splitting the empty string yields one empty piece. -/
def splitOnCh (sep : Char) : List Char → List (List Char)
  | [] => [[]]
  | c :: cs =>
    let r := splitOnCh sep cs
    if c == sep then [] :: r
    else
      match r with
      | [] => [[c]]
      | h :: t => (c :: h) :: t

/-- `s.split(sep)` on strings. -/
def pySplit (sep : Char) (s : String) : List String :=
  (splitOnCh sep s.data).map String.mk

/-- `s.replace(old, new)` for one-character `old` and `new` (the only form
the scripts use). -/
def pyReplaceCh (old new : Char) (s : String) : String :=
  String.mk (s.data.map fun c => if c == old then new else c)

/-!
## Salary extraction (`extract_salary`, greenhouse_import.py lines 96-122)

The three members of `SALARY_PATTERNS` are implemented as dedicated
deterministic scanners.  On these patterns the greedy, non-backtracking
strategy coincides with Python's backtracking semantics because every
repetition class is disjoint from the character that must follow it.
-/

/-- Character class `[\d,]` of the dollar-range pattern. -/
def numCh : Char → Bool :=
  fun c => c.isDigit || c == ','

/-- Separator class `[-–—to]` between the two dollar amounts of pattern 1,
which is compiled without flags: lowercase `t`/`o` only. -/
def sepCh : Char → Bool :=
  fun c => c == '-' || c == '–' || c == '—' || c == 't' || c == 'o'

/-- The optional fraction `(?:\.\d+)?`: a dot followed by one or more
digits, or nothing. -/
def dotDigits (cs : List Char) : Option (List Char × List Char) :=
  match cs with
  | '.' :: rest =>
    let ds := rest.takeWhile Char.isDigit
    if ds.isEmpty then none else some ('.' :: ds, rest.drop ds.length)
  | _ => none

/-- Capturing group `[\d,]+(?:\.\d+)?` of patterns 1 and 3. -/
def numGroup (cs : List Char) : Option (List Char × List Char) :=
  let ds := cs.takeWhile numCh
  if ds.isEmpty then none
  else
    let rest := cs.drop ds.length
    match dotDigits rest with
    | some (f, rest2) => some (ds ++ f, rest2)
    | none => some (ds, rest)

/-- Capturing group `[\d.]+` of pattern 2. -/
def numDotGroup (cs : List Char) : Option (List Char × List Char) :=
  let ds := cs.takeWhile fun c => c.isDigit || c == '.'
  if ds.isEmpty then none else some (ds, cs.drop ds.length)

/-- One or more separator characters, `[-–—to]+`. -/
def sepChars (cs : List Char) : Option (List Char) :=
  let ss := cs.takeWhile sepCh
  if ss.isEmpty then none else some (cs.drop ss.length)

/-- Separator class `[-–—to]` of pattern 2, which is compiled with
`re.IGNORECASE`: uppercase `T`/`O` also match (the dashes have no case). -/
def sepChI : Char → Bool :=
  fun c => sepCh c.toLower

/-- One or more separator characters, `[-–—to]+`, case-insensitive. -/
def sepCharsI (cs : List Char) : Option (List Char) :=
  let ss := cs.takeWhile sepChI
  if ss.isEmpty then none else some (cs.drop ss.length)

/-- Anchored attempt of pattern 1,
`\$\s*([\d,]+(?:\.\d+)?)\s*[-–—to]+\s*\$\s*([\d,]+(?:\.\d+)?)`. -/
def pat1At (cs : List Char) : Option (String × String) :=
  match cs with
  | '$' :: r0 =>
    let r1 := r0.dropWhile pyWs
    match numGroup r1 with
    | none => none
    | some (g1, r2) =>
      let r3 := r2.dropWhile pyWs
      match sepChars r3 with
      | none => none
      | some r4 =>
        let r5 := r4.dropWhile pyWs
        match r5 with
        | '$' :: r6 =>
          let r7 := r6.dropWhile pyWs
          match numGroup r7 with
          | none => none
          | some (g2, _) => some (String.mk g1, String.mk g2)
        | _ => none
  | _ => none

/-- Anchored attempt of pattern 2,
`\$\s*([\d.]+)\s*k\s*[-–—to]+\s*\$\s*([\d.]+)\s*k` (IGNORECASE). -/
def pat2At (cs : List Char) : Option (String × String) :=
  match cs with
  | '$' :: r0 =>
    let r1 := r0.dropWhile pyWs
    match numDotGroup r1 with
    | none => none
    | some (g1, r2) =>
      let r3 := r2.dropWhile pyWs
      match r3 with
      | k1 :: r4 =>
        if k1.toLower == 'k' then
          let r5 := r4.dropWhile pyWs
          match sepCharsI r5 with
          | none => none
          | some r6 =>
            let r7 := r6.dropWhile pyWs
            match r7 with
            | '$' :: r8 =>
              let r9 := r8.dropWhile pyWs
              match numDotGroup r9 with
              | none => none
              | some (g2, r10) =>
                let r11 := r10.dropWhile pyWs
                match r11 with
                | k2 :: _ => if k2.toLower == 'k' then some (String.mk g1, String.mk g2) else none
                | [] => none
            | _ => none
        else none
      | [] => none
  | _ => none

/-- Anchored attempt of pattern 3, `\$\s*([\d,]+(?:\.\d+)?)\s+OTE`
(IGNORECASE). -/
def pat3At (cs : List Char) : Option String :=
  match cs with
  | '$' :: r0 =>
    let r1 := r0.dropWhile pyWs
    match numGroup r1 with
    | none => none
    | some (g, r2) =>
      let ws := r2.takeWhile pyWs
      if ws.isEmpty then none
      else if ciPre "ote".data (r2.drop ws.length) then some (String.mk g) else none
  | _ => none

/-- `re.search` for the dedicated scanners: leftmost starting position
wins. -/
def searchWith {α : Type} (patAt : List Char → Option α) : List Char → Option α
  | [] => patAt []
  | c :: cs =>
    match patAt (c :: cs) with
    | some r => some r
    | none => searchWith patAt cs

/-- Result of `extract_salary`: Python returns `(None, None)` on no match,
a pair of numbers on a match, and raises `ValueError` out of `float` when a
captured group is not a valid float literal (`err`). -/
inductive SalResult where
  | err : SalResult
  | nomatch : SalResult
  | range : Rat → Rat → SalResult
deriving DecidableEq

/-- `g.replace(",", "")`. -/
def stripCommas (s : String) : String :=
  String.mk (s.data.filter fun c => c != ',')

/-- Value of a digit character. -/
def digitVal (c : Char) : Nat :=
  c.toNat - 48

/-- Natural number denoted by a digit string. -/
def natOfDigits (cs : List Char) : Nat :=
  cs.foldl (fun n c => n * 10 + digitVal c) 0

/-- Decimal read by Python `float` on the strings producible by the
capturing groups above (digits and at most one dot; an empty string or a
string of dots raises `ValueError`).  The decimal `ip.fp` is returned as the
pair (numerator, number of fractional digits): its value is
`numerator / 10 ^ k`.  Floats are modelled exactly, as rationals. -/
def parsePyFloatParts (s : String) : Option (Nat × Nat) :=
  match splitOnCh '.' s.data with
  | [ip] =>
    if ip.length > 0 && ip.all Char.isDigit then some (natOfDigits ip, 0)
    else none
  | [ip, fp] =>
    if (ip.length > 0 || fp.length > 0) && ip.all Char.isDigit && fp.all Char.isDigit then
      some (natOfDigits ip * 10 ^ fp.length + natOfDigits fp, fp.length)
    else none
  | _ => none

/-- Rational value of a parsed decimal. -/
def ratOfParts (p : Nat × Nat) : Rat :=
  mkRat p.1 (10 ^ p.2)

/-- Python `float` itself. -/
def parsePyFloat (s : String) : Option Rat :=
  (parsePyFloatParts s).map ratOfParts

/-- Normalisation of one captured value: strip thousands separators, parse,
and treat a value below 1000 as a "k" shorthand (multiply by 1000).  The
multiplication is carried out on the decimal numerator
(`mkRat (p.1 * 1000) (10 ^ p.2) = ratOfParts p * 1000`, see
`normVal_eq_mul_form`). -/
def normVal (g : String) : Option Rat :=
  (parsePyFloatParts (stripCommas g)).map fun p =>
    if ratOfParts p < 1000 then mkRat (p.1 * 1000) (10 ^ p.2) else ratOfParts p

/-- `normVal` is exactly "parse with `float`, then multiply by 1000 when the
value is below 1000". -/
theorem normVal_eq_mul_form (g : String) :
    normVal g =
      (parsePyFloat (stripCommas g)).map fun v => if v < 1000 then v * 1000 else v := by
  unfold normVal parsePyFloat
  cases h : parsePyFloatParts (stripCommas g) with
  | none => rfl
  | some p =>
    simp only [Option.map_some']
    congr 1
    split
    · unfold ratOfParts
      rw [Rat.mkRat_eq_divInt, Rat.mkRat_eq_divInt]
      rw [Rat.divInt_eq_div, Rat.divInt_eq_div]
      push_cast
      ring
    · rfl

/-- Python `round` (banker's rounding, half to even).  The fractional part
of `q` is `rem / q.den` with `rem = q.num - q.floor * q.den` and
`0 ≤ rem < q.den`; comparing it with `1/2` is comparing `2 * rem` with
`q.den`. -/
def pyRound (q : Rat) : Int :=
  let f := q.floor
  let rem := q.num - f * (q.den : Int)
  if 2 * rem < (q.den : Int) then f
  else if 2 * rem > (q.den : Int) then f + 1
  else if f % 2 = 0 then f else f + 1

/-- `ote * 0.6`: multiplication by `3/5` written on the numerator and
denominator (`Rat.divInt (3 * v.num) (5 * v.den) = 3 / 5 * v`, see
`oteTimes06_eq`). -/
def oteTimes06 (v : Rat) : Rat :=
  Rat.divInt (3 * v.num) (5 * (v.den : Int))

/-- `oteTimes06` is multiplication by `3/5`. -/
theorem oteTimes06_eq (v : Rat) : oteTimes06 v = 3 / 5 * v := by
  unfold oteTimes06
  rw [Rat.divInt_eq_div]
  push_cast
  conv_rhs => rw [← Rat.num_div_den v, div_mul_div_comm]

/-- Result of a two-group match: `(min(vals), max(vals))` after per-value
normalisation; `err` when `float` raises on either group. -/
def twoValResult (g1 g2 : String) : SalResult :=
  match normVal g1, normVal g2 with
  | some v1, some v2 => SalResult.range (min v1 v2) (max v1 v2)
  | _, _ => SalResult.err

/-- `extract_salary(description_text)`: the loop over `SALARY_PATTERNS` is
unrolled over its three fixed members; the first pattern with a search hit
decides the result. -/
def extract_salary (s : String) : SalResult :=
  if s = "" then SalResult.nomatch
  else
    match searchWith pat1At s.data with
    | some (g1, g2) => twoValResult g1 g2
    | none =>
      match searchWith pat2At s.data with
      | some (g1, g2) => twoValResult g1 g2
      | none =>
        match searchWith pat3At s.data with
        | some g =>
          match normVal g with
          | none => SalResult.err
          | some v =>
            SalResult.range ((pyRound (oteTimes06 v) : Int) : Rat) ((pyRound v : Int) : Rat)
        | none => SalResult.nomatch

/-- The groups captured by the first of the two two-value salary patterns
that matches, in the order `extract_salary` tries them. -/
def firstTwoCapture (s : String) : Option (String × String) :=
  match searchWith pat1At s.data with
  | some r => some r
  | none => searchWith pat2At s.data

/-!
## Location parsing (`parse_location`, greenhouse_import.py lines 465-547)
-/

/-- The `US_STATES` set of two-letter state codes. -/
def US_STATES : List String :=
  ["AL", "AK", "AZ", "AR", "CA", "CO", "CT", "DE", "FL", "GA", "HI", "ID",
   "IL", "IN", "IA", "KS", "KY", "LA", "ME", "MD", "MA", "MI", "MN", "MS",
   "MO", "MT", "NE", "NV", "NH", "NJ", "NM", "NY", "NC", "ND", "OH", "OK",
   "OR", "PA", "RI", "SC", "SD", "TN", "TX", "UT", "VT", "VA", "WA", "WV",
   "WI", "WY", "DC"]

/-- The `METRO_MAP` city-to-metro table, in source (dict insertion)
order. -/
def METRO_MAP : List (String × String) :=
  [("san francisco", "San Francisco Bay Area"),
   ("santa clara", "San Francisco Bay Area"),
   ("palo alto", "San Francisco Bay Area"),
   ("mountain view", "San Francisco Bay Area"),
   ("sunnyvale", "San Francisco Bay Area"),
   ("new york", "New York Metro"),
   ("new york city", "New York Metro"),
   ("brooklyn", "New York Metro"),
   ("hamilton", "New York Metro"),
   ("new brunswick", "New York Metro"),
   ("seattle", "Seattle Metro"),
   ("boston", "Boston Metro"),
   ("chicago", "Chicago Metro"),
   ("los angeles", "Los Angeles Metro"),
   ("sandy", "Salt Lake City Metro"),
   ("salt lake city", "Salt Lake City Metro"),
   ("austin", "Austin Metro"),
   ("denver", "Denver Metro"),
   ("waterloo", "Waterloo, Canada"),
   ("toronto", "Toronto, Canada"),
   ("london", "London, UK"),
   ("singapore", "Singapore"),
   ("sydney", "Sydney, Australia"),
   ("rio de janeiro", "Rio de Janeiro, Brazil"),
   ("hong kong", "Hong Kong"),
   ("abu dhabi", "Abu Dhabi, UAE")]

/-- The fixed remote-indicator strings of the remote-detection step. -/
def REMOTE_INDICATORS : List String :=
  ["remote", "remote, us", "remote, usa", "remote - us",
   "remote - usa", "anywhere", "work from home"]

/-- Python substring containment, `needle in hay`. -/
def containsSub (hay needle : String) : Bool :=
  hay.data.tails.any fun t => needle.data.isPrefixOf t

/-- First `METRO_MAP` entry whose city key occurs as a substring of the
city token (`if city_key in city`). -/
def findMetro : List (String × String) → String → Option String
  | [], _ => none
  | (k, v) :: rest, city => if containsSub city k then some v else findMetro rest city

/-- First comma-part whose stripped, upper-cased form is a US state code
(`if upper in US_STATES`). -/
def findState : List String → Option String
  | [] => none
  | p :: rest =>
    let upper := pyUpper (pyStrip p)
    if US_STATES.contains upper then some upper else findState rest

/-- The metro/state accumulation loop over the semicolon-separated
candidate locations, including the early `break` once both are found. -/
def scanLocs : List String → Option String → Option String → Option String × Option String
  | [], metro, state => (metro, state)
  | loc :: rest, metro, state =>
    let loc_parts := (pySplit ',' loc).map pyStrip
    let city :=
      match loc_parts with
      | [] => ""
      | p :: _ => pyStrip (pyLower p)
    let metro2 := if metro.isSome then metro else findMetro METRO_MAP city
    let state2 := if state.isSome then state else findState loc_parts
    if metro2.isSome && state2.isSome then (metro2, state2)
    else scanLocs rest metro2 state2

/-- Result of `parse_location`, mirroring the Python 4-tuple
`(loc_type, metro, state, is_remote)`. -/
structure LocResult where
  location_type : Option String
  location_metro : Option String
  location_state : Option String
  is_remote : Bool
deriving DecidableEq

/-- `parse_location(location_str)`.  The Python guard `if not location_str`
is the empty-string test (the upstream caller always passes a string). -/
def parse_location (location_str : String) : LocResult :=
  if location_str = "" then
    { location_type := none, location_metro := none, location_state := none, is_remote := false }
  else
    let loc_lower := pyStrip (pyLower location_str)
    if REMOTE_INDICATORS.contains loc_lower then
      { location_type := some "remote", location_metro := none, location_state := none,
        is_remote := true }
    else
      let all_locs := (pySplit ';' location_str).map pyStrip
      let ms := scanLocs all_locs none none
      { location_type := some "onsite", location_metro := ms.1, location_state := ms.2,
        is_remote := false }

/-!
## Function classification (`classify_function`, lines 129-186)
-/

/-- The `DEPARTMENT_TO_FUNCTION` lookup table, in source order. -/
def DEPARTMENT_TO_FUNCTION : List (String × String) :=
  [("account executive", "sales"), ("account management", "sales"),
   ("business development", "sales"), ("sales", "sales"),
   ("sales development", "sales"), ("sales operations", "sales"),
   ("sales enablement", "sales"), ("sales strategy", "sales"),
   ("sales strategy & operations", "sales"), ("cartax sales", "sales"),
   ("revenue", "sales"),
   ("engineering", "engineering"), ("engineering leadership", "engineering"),
   ("infrastructure", "engineering"), ("site reliability", "engineering"),
   ("mobile", "engineering"), ("information security & it", "engineering"),
   ("business systems", "engineering"), ("data & machine learning", "data"),
   ("product", "product"), ("design", "product"), ("r&d operations", "product"),
   ("marketing", "marketing"), ("brand marketing", "marketing"),
   ("demand generation", "marketing"), ("marketing operations", "marketing"),
   ("product marketing", "marketing"),
   ("finance", "finance"), ("strategic finance", "finance"),
   ("accounting", "finance"), ("treasury", "finance"),
   ("procurement", "finance"), ("tax", "finance"), ("valuations", "finance"),
   ("people", "people"), ("human resources", "people"),
   ("recruiting", "people"), ("total rewards", "people"),
   ("learning & development", "people"),
   ("legal", "legal"), ("compliance", "legal"),
   ("policy", "legal"), ("policy & strategy", "legal"),
   ("customer success", "operations"), ("customer support", "operations"),
   ("customer implementations", "operations"), ("delivery operations", "operations"),
   ("operations & underwriting", "operations"),
   ("strategy & business operations", "operations"),
   ("fund administration", "operations"), ("broker & market operations", "operations"),
   ("portfolio insights", "operations"), ("administrative", "operations"),
   ("real estate and workplace services", "operations"), ("liquidity", "operations"),
   ("executive", "other"), ("executive assistant", "operations"),
   ("confidential", "other")]

/-- The `TITLE_TO_FUNCTION` ordered rule list.  Each Python regex of the
form `\b(w1|w2|…)\b` is compiled to the list of its word-delimited
alternatives. -/
def TITLE_TO_FUNCTION : List (List (List RTok) × String) :=
  [(["engineer", "developer", "sre", "devops", "architect", "infrastructure"].map word,
    "engineering"),
   (["data scientist", "data engineer", "machine learning", "ml engineer", "analytics"].map word,
    "data"),
   (["product manager", "product lead", "product director"].map word, "product"),
   (["designer", "ux", "ui"].map word, "product"),
   (["account executive", "ae", "sales", "sdr", "bdr", "business development"].map word,
    "sales"),
   (["marketing", "demand gen", "content", "brand", "growth"].map word, "marketing"),
   (["finance", "accounting", "controller", "tax", "treasury"].map word, "finance"),
   (["recruiter", "talent", "people", "hr", "human resources", "hrbp"].map word, "people"),
   (["legal", "counsel", "compliance", "paralegal"].map word, "legal"),
   (["operations", "support", "success", "implementation", "onboarding"].map word,
    "operations")]

/-- First-match-wins evaluation of an ordered `(pattern, value)` rule list
with a default, shared by the title-function scan and the seniority
classifier. -/
def firstRuleMatch (rules : List (List (List RTok) × String)) (dflt : String) (t : String) :
    String :=
  match rules with
  | [] => dflt
  | (p, v) :: rest => if reSearch p t then v else firstRuleMatch rest dflt t

/-- The title scan of `classify_function`: first matching rule of
`TITLE_TO_FUNCTION` on the lowercased title, defaulting to `other`. -/
def titleScan (title : String) : String :=
  firstRuleMatch TITLE_TO_FUNCTION "other" (pyLower title)

/-- `classify_function(department_name, title)`: a truthy department whose
lowercased, stripped form is in the table wins immediately; otherwise the
title rules are scanned. -/
def classify_function (department_name : Option String) (title : String) : String :=
  match department_name with
  | some d =>
    if d ≠ "" then
      match List.lookup (pyStrip (pyLower d)) DEPARTMENT_TO_FUNCTION with
      | some f => f
      | none => titleScan title
    else titleScan title
  | none => titleScan title

/-!
## Seniority classification (`classify_seniority`, lines 193-218)
-/

/-- The `SENIORITY_RULES` ordered rule list; every pattern is compiled to
its list of alternatives (original regexes in comments). -/
def SENIORITY_RULES : List (List (List RTok) × String) :=
  [ -- \b(chief|ceo|cto|cfo|coo|cpo|cro|cmo)\b
   (["chief", "ceo", "cto", "cfo", "coo", "cpo", "cro", "cmo"].map word, "c_level"),
   -- \bevp\b|executive vice president
   ([word "evp", lits "executive vice president"], "evp"),
   -- \bsvp\b|senior vice president
   ([word "svp", lits "senior vice president"], "svp"),
   -- \bvice president\b|\bvp\b
   ([word "vice president", word "vp"], "vp"),
   -- \bsenior director\b
   ([word "senior director"], "senior_director"),
   -- \bdirector\b
   ([word "director"], "director"),
   -- \bhead of\b|\bhead,
   ([word "head of", [RTok.wb] ++ lits "head,"], "head"),
   -- \bsenior manager\b
   ([word "senior manager"], "senior_manager"),
   -- \bmanager\b
   ([word "manager"], "manager"),
   -- \bstaff\b
   ([word "staff"], "senior"),
   -- \bprincipal\b
   ([word "principal"], "senior"),
   -- \blead\b
   ([word "lead"], "senior"),
   -- \bsenior\b|\bsr\.?\b
   ([word "senior", [RTok.wb] ++ lits "sr" ++ [RTok.optCls (fun c => c == '.'), RTok.wb]],
    "senior"),
   -- \bassociate\b
   ([word "associate"], "associate"),
   -- \bjunior\b|\bjr\.?\b
   ([word "junior", [RTok.wb] ++ lits "jr" ++ [RTok.optCls (fun c => c == '.'), RTok.wb]],
    "entry"),
   -- \bintern\b
   ([word "intern"], "entry")]

/-- `classify_seniority(title)`. -/
def classify_seniority (title : String) : String :=
  firstRuleMatch SENIORITY_RULES "mid" (pyLower title)

/-!
## AI detection (`detect_ai`, lines 225-247)
-/

/-- The `[ -]` class of the `ai[ -]native` style alternatives. -/
def spaceDash (c : Char) : Bool :=
  c == ' ' || c == '-'

/-- The `AI_TERMS` pattern
`\b(artificial intelligence|…|ai/ml)\b|\bAI\b` (IGNORECASE), compiled as a
list of alternatives tagged with "lies inside the capturing group".  The
final `\bAI\b` alternative is outside the group. -/
def AI_TERMS : List (Bool × List RTok) :=
  [(true, word "artificial intelligence"),
   (true, word "machine learning"),
   (true, word "deep learning"),
   (true, word "neural network"),
   (true, word "nlp"),
   (true, word "natural language processing"),
   (true, word "computer vision"),
   (true, word "llm"),
   (true, word "large language model"),
   (true, word "generative ai"),
   (true, word "gpt"),
   (true, word "transformer model"),
   (true, word "reinforcement learning"),
   -- ai[ -]native, ai[ -]first, ai[ -]powered
   (true, [RTok.wb] ++ lits "ai" ++ [RTok.cls spaceDash] ++ lits "native" ++ [RTok.wb]),
   (true, [RTok.wb] ++ lits "ai" ++ [RTok.cls spaceDash] ++ lits "first" ++ [RTok.wb]),
   (true, [RTok.wb] ++ lits "ai" ++ [RTok.cls spaceDash] ++ lits "powered" ++ [RTok.wb]),
   (true, word "ai/ml"),
   (false, word "AI")]

/-- The `AI_NATIVE_PATTERNS` pattern
`\b(machine learning engineer|…|prompt engineer)\b` (IGNORECASE). -/
def AI_NATIVE_PATTERNS : List (List RTok) :=
  ["machine learning engineer", "ml engineer", "ai engineer",
   "data scientist", "deep learning", "nlp engineer", "computer vision engineer",
   "ai researcher", "llm", "prompt engineer"].map word

/-- `detect_ai(title, description)`, returning
`(has_ai, terms_found, is_native)`.  Python joins `set(...)` of the found
group texts with `", "` in an unspecified set-iteration order; the set is
modelled as the deduplicated list of the findall captures. -/
def detect_ai (title description : String) : Bool × Option (List String) × Bool :=
  let text := title ++ " " ++ description
  let mentions := findAll AI_TERMS text
  let has_ai := !mentions.isEmpty
  let terms_found := if has_ai then some mentions.dedup else none
  let is_native := reSearch AI_NATIVE_PATTERNS title
  (has_ai, terms_found, is_native)

/-!
## Signal and tool taxonomies (`extract_signals` lines 255-322,
`extract_tools` lines 331-458)

Every pattern is compiled from its Python regex (quoted in a comment where
it is not a plain literal or `\b`-wrapped word); `|` alternatives become
list members, and the one inner group alternation
(`outreach\s*(platform|sales\s*engagement)`) is distributed into top-level
alternatives, which preserves the existence of a match.
-/

/-- The `[\s-]*` class of `react` / `fine_tuning` patterns. -/
def wsDash (c : Char) : Bool :=
  pyWs c || c == '-'

/-- `.*` as a token. -/
def dotStar : RTok :=
  RTok.star anyCh

/-- `.?` as a token. -/
def dotOpt : RTok :=
  RTok.optCls anyCh

/-- The `SIGNAL_PATTERNS` taxonomy, in source order:
`signal_type → signal_id → compiled pattern`. -/
def SIGNAL_PATTERNS : List (String × List (String × List (List RTok))) :=
  [("hiring_signals",
    [("immediate", [lits "immediate", lits "asap", lits "urgent"]),
     -- growth|expansion|adding\s*to\s*team
     ("growth_hire",
      [lits "growth", lits "expansion",
       lits "adding" ++ [wsStar] ++ lits "to" ++ [wsStar] ++ lits "team"]),
     ("turnaround", [lits "turnaround", lits "transform", lits "rebuild", lits "restructur"])]),
   ("team_structure",
    [ -- first\s*(sales)?\s*hire|founding|build\s*from\s*scratch|ground\s*up
     ("first_hire",
      [lits "first" ++ [wsStar, RTok.optStr "sales".data, wsStar] ++ lits "hire",
       lits "founding",
       lits "build" ++ [wsStar] ++ lits "from" ++ [wsStar] ++ lits "scratch",
       lits "ground" ++ [wsStar] ++ lits "up"]),
     -- player.?coach|selling\s*manager|carry.*quota.*manage
     ("player_coach",
      [lits "player" ++ [dotOpt] ++ lits "coach",
       lits "selling" ++ [wsStar] ++ lits "manager",
       lits "carry" ++ [dotStar] ++ lits "quota" ++ [dotStar] ++ lits "manage"]),
     -- build.*team|hire.*team|recruit.*team|grow.*team
     ("build_team",
      [lits "build" ++ [dotStar] ++ lits "team",
       lits "hire" ++ [dotStar] ++ lits "team",
       lits "recruit" ++ [dotStar] ++ lits "team",
       lits "grow" ++ [dotStar] ++ lits "team"]),
     -- report.*cro|report.*chief\s*revenue
     ("reports_cro",
      [lits "report" ++ [dotStar] ++ lits "cro",
       lits "report" ++ [dotStar] ++ lits "chief" ++ [wsStar] ++ lits "revenue"]),
     -- report.*ceo|report.*founder
     ("reports_ceo",
      [lits "report" ++ [dotStar] ++ lits "ceo",
       lits "report" ++ [dotStar] ++ lits "founder"]),
     -- report.*vp\s*sales|report.*vice\s*president
     ("reports_vp",
      [lits "report" ++ [dotStar] ++ lits "vp" ++ [wsStar] ++ lits "sales",
       lits "report" ++ [dotStar] ++ lits "vice" ++ [wsStar] ++ lits "president"])]),
   ("comp_signals",
    [("equity", [lits "equity", lits "stock", lits "rsu", lits "option", lits "ownership"]),
     -- uncapped|no\s*cap|unlimited\s*commission
     ("uncapped",
      [lits "uncapped", lits "no" ++ [wsStar] ++ lits "cap",
       lits "unlimited" ++ [wsStar] ++ lits "commission"]),
     -- \bote\b|on.?target
     ("ote_mentioned", [word "ote", lits "on" ++ [dotOpt] ++ lits "target"])]),
   ("segment",
    [ -- \bsmb\b|small\s*business|small.*medium
     ("smb",
      [word "smb", lits "small" ++ [wsStar] ++ lits "business",
       lits "small" ++ [dotStar] ++ lits "medium"]),
     -- mid.?market|middle\s*market
     ("mid_market",
      [lits "mid" ++ [dotOpt] ++ lits "market",
       lits "middle" ++ [wsStar] ++ lits "market"]),
     ("enterprise", [word "enterprise"])]),
   ("motion",
    [ -- \bchannel\b|partner\s*sales|reseller
     ("channel",
      [word "channel", lits "partner" ++ [wsStar] ++ lits "sales", lits "reseller"]),
     -- product.?led|\bplg\b|self.?serve|freemium
     ("plg",
      [lits "product" ++ [dotOpt] ++ lits "led", word "plg",
       lits "self" ++ [dotOpt] ++ lits "serve", lits "freemium"]),
     -- account.?based|\babm\b
     ("abm", [lits "account" ++ [dotOpt] ++ lits "based", word "abm"])]),
   ("geo_focus",
    [ -- north\s*america|\busa\b|united\s*states|\bus\s*market
     ("north_america",
      [lits "north" ++ [wsStar] ++ lits "america", word "usa",
       lits "united" ++ [wsStar] ++ lits "states",
       [RTok.wb] ++ lits "us" ++ [wsStar] ++ lits "market"]),
     -- \bemea\b|europe|\buk\b|european
     ("emea", [word "emea", lits "europe", word "uk", lits "european"]),
     -- \bapac\b|asia|pacific|japan|china|india|australia
     ("apac",
      [word "apac", lits "asia", lits "pacific", lits "japan", lits "china",
       lits "india", lits "australia"]),
     -- \blatam\b|latin\s*america|brazil|mexico
     ("latam",
      [word "latam", lits "latin" ++ [wsStar] ++ lits "america",
       lits "brazil", lits "mexico"]),
     -- \bglobal\b|worldwide|international
     ("global", [word "global", lits "worldwide", lits "international"])])]

/-- The `TOOL_PATTERNS` taxonomy, in source order:
`tool_category → tool_id → compiled pattern`. -/
def TOOL_PATTERNS : List (String × List (String × List (List RTok))) :=
  [("CRM",
    [("salesforce", [word "salesforce"]),
     ("hubspot", [word "hubspot"]),
     -- dynamics\s*365|microsoft\s*dynamics
     ("dynamics_365",
      [lits "dynamics" ++ [wsStar] ++ lits "365",
       lits "microsoft" ++ [wsStar] ++ lits "dynamics"])]),
   ("Sales_Engagement",
    [ -- outreach\.io|outreach\s*(platform|sales\s*engagement)
     ("outreach",
      [lits "outreach.io",
       lits "outreach" ++ [wsStar] ++ lits "platform",
       lits "outreach" ++ [wsStar] ++ lits "sales" ++ [wsStar] ++ lits "engagement"]),
     ("salesloft", [word "salesloft"]),
     -- \bapollo\.io\b|\bapollo\b
     ("apollo", [word "apollo.io", word "apollo"]),
     ("gong", [word "gong"])]),
   ("Languages",
    [("python", [word "python"]),
     -- \bjavascript\b|\bnode\.?js\b|\btypescript\b
     ("javascript",
      [word "javascript",
       [RTok.wb] ++ lits "node" ++ [RTok.optCls (fun c => c == '.')] ++ lits "js" ++ [RTok.wb],
       word "typescript"]),
     -- \bjava\b(?!script)
     ("java", [word "java" ++ [RTok.neg none "script".data]]),
     -- \bgo\b(?:lang)?|\bgolang\b
     ("golang", [word "go" ++ [RTok.optStr "lang".data], word "golang"]),
     -- \bruby\b(?!\s*on\s*rails)? : the optional lookahead assertion can
     -- always be satisfied by taking zero occurrences, so it is vacuous
     ("ruby", [word "ruby"]),
     -- ruby\s*on\s*rails|\brails\b
     ("ruby_on_rails",
      [lits "ruby" ++ [wsStar] ++ lits "on" ++ [wsStar] ++ lits "rails", word "rails"]),
     ("rust", [word "rust"]),
     ("scala", [word "scala"]),
     ("kotlin", [word "kotlin"]),
     ("swift", [word "swift"]),
     -- \bc\+\+\b|\bcpp\b
     ("cpp", [word "c++", word "cpp"]),
     -- \bc#\b|\.net\b
     ("csharp", [word "c#", lits ".net" ++ [RTok.wb]]),
     ("sql", [word "sql"]),
     ("graphql", [word "graphql"])]),
   ("Cloud_Infrastructure",
    [ -- \baws\b|amazon\s*web\s*services
     ("aws",
      [word "aws",
       lits "amazon" ++ [wsStar] ++ lits "web" ++ [wsStar] ++ lits "services"]),
     -- \bgcp\b|google\s*cloud
     ("gcp", [word "gcp", lits "google" ++ [wsStar] ++ lits "cloud"]),
     ("azure", [word "azure"]),
     -- \bkubernetes\b|\bk8s\b
     ("kubernetes", [word "kubernetes", word "k8s"]),
     ("docker", [word "docker"]),
     ("terraform", [word "terraform"])]),
   ("Databases",
    [ -- \bpostgres(?:ql)?\b
     ("postgresql", [[RTok.wb] ++ lits "postgres" ++ [RTok.optStr "ql".data, RTok.wb]]),
     ("mysql", [word "mysql"]),
     -- \bmongodb\b|\bmongo\b
     ("mongodb", [word "mongodb", word "mongo"]),
     ("redis", [word "redis"]),
     -- \belasticsearch\b|\belastic\b
     ("elasticsearch", [word "elasticsearch", word "elastic"]),
     ("snowflake", [word "snowflake"]),
     -- \bbigquery\b|big\s*query
     ("bigquery", [word "bigquery", lits "big" ++ [wsStar] ++ lits "query"]),
     ("redshift", [word "redshift"])]),
   ("Frameworks",
    [ -- \breact\b(?![\s-]*native)
     ("react", [word "react" ++ [RTok.neg (some wsDash) "native".data]]),
     -- react[\s-]*native
     ("react_native", [lits "react" ++ [RTok.star wsDash] ++ lits "native"]),
     ("angular", [word "angular"]),
     -- \bvue\.?js\b|\bvue\b
     ("vue",
      [[RTok.wb] ++ lits "vue" ++ [RTok.optCls (fun c => c == '.')] ++ lits "js" ++ [RTok.wb],
       word "vue"]),
     ("django", [word "django"]),
     ("flask", [word "flask"]),
     -- \bspring\s*boot\b|\bspring\b
     ("spring",
      [[RTok.wb] ++ lits "spring" ++ [wsStar] ++ lits "boot" ++ [RTok.wb], word "spring"]),
     -- \bnext\.?js\b
     ("nextjs",
      [[RTok.wb] ++ lits "next" ++ [RTok.optCls (fun c => c == '.')] ++ lits "js" ++ [RTok.wb]])]),
   ("Data_Tools",
    [ -- \bspark\b|pyspark
     ("spark", [word "spark", lits "pyspark"]),
     ("airflow", [word "airflow"]),
     ("dbt", [word "dbt"]),
     ("tableau", [word "tableau"]),
     ("looker", [word "looker"]),
     -- power\s*bi
     ("power_bi", [lits "power" ++ [wsStar] ++ lits "bi"]),
     ("fivetran", [word "fivetran"])]),
   ("AI_ML",
    [("pytorch", [word "pytorch"]),
     ("tensorflow", [word "tensorflow"]),
     ("langchain", [word "langchain"]),
     ("openai_api", [word "openai"]),
     -- hugging\s*face|\bhuggingface\b
     ("huggingface", [lits "hugging" ++ [wsStar] ++ lits "face", word "huggingface"]),
     -- \brag\b|retrieval\s*augmented
     ("rag", [word "rag", lits "retrieval" ++ [wsStar] ++ lits "augmented"]),
     -- fine[\s-]*tuning
     ("fine_tuning", [lits "fine" ++ [RTok.star wsDash] ++ lits "tuning"])]),
   ("Marketing_Tools",
    [("marketo", [word "marketo"]),
     ("pardot", [word "pardot"]),
     -- google\s*analytics|\bga4\b
     ("google_analytics", [lits "google" ++ [wsStar] ++ lits "analytics", word "ga4"]),
     -- \bsegment\b(?!ation)
     ("segment", [word "segment" ++ [RTok.neg none "ation".data]]),
     ("mixpanel", [word "mixpanel"]),
     ("amplitude", [word "amplitude"])]),
   ("Collaboration",
    [("jira", [word "jira"]),
     ("confluence", [word "confluence"]),
     ("figma", [word "figma"]),
     ("slack", [word "slack"]),
     ("notion", [word "notion"])]),
   ("Finance_Tools",
    [("netsuite", [word "netsuite"]),
     ("workday", [word "workday"]),
     ("sap", [word "sap"]),
     ("quickbooks", [word "quickbooks"]),
     ("stripe_api", [word "stripe"])])]

/-- Python `str.title()` (ASCII fragment): a letter is upper-cased when the
previous character is not a letter, lower-cased otherwise. -/
def pyTitleGo : Bool → List Char → List Char
  | _, [] => []
  | prevAlpha, c :: cs =>
    if c.isAlpha then
      (if prevAlpha then c.toLower else c.toUpper) :: pyTitleGo true cs
    else c :: pyTitleGo false cs

/-- `s.title()`. -/
def pyTitleCase (s : String) : String :=
  String.mk (pyTitleGo false s.data)

/-- One `job_signals` tag. -/
structure Signal where
  signal_type : String
  signal_id : String
  signal_value : String
deriving DecidableEq

/-- One `job_tools` tag. -/
structure Tool where
  tool_name : String
  tool_category : String
  tool_id : String
deriving DecidableEq

/-- The inner loop of `extract_signals` over the ids of one signal type,
threading the `seen` key set (`"type:id"` strings) and collecting found
signals in order.  All patterns of the fixed taxonomy compile, so the
`re.error` fallback branch of the source is dead code and not modelled. -/
def sigInner (text stype : String) :
    List String → List (String × List (List RTok)) → List Signal × List String
  | seen, [] => ([], seen)
  | seen, (sid, pat) :: rest =>
    let key := stype ++ ":" ++ sid
    if seen.contains key then sigInner text stype seen rest
    else if reSearch pat text then
      let out := sigInner text stype (seen ++ [key]) rest
      ({ signal_type := stype, signal_id := sid,
         signal_value := pyTitleCase (pyReplaceCh '_' ' ' sid) } :: out.1, out.2)
    else sigInner text stype seen rest

/-- The outer loop of `extract_signals` over the signal types. -/
def sigOuter (text : String) :
    List String → List (String × List (String × List (List RTok))) → List Signal × List String
  | seen, [] => ([], seen)
  | seen, (stype, sigs) :: rest =>
    let r1 := sigInner text stype seen sigs
    let r2 := sigOuter text r1.2 rest
    (r1.1 ++ r2.1, r2.2)

/-- `extract_signals(title, description)`. -/
def extract_signals (title description : String) : List Signal :=
  (sigOuter (pyLower (title ++ " " ++ description)) [] SIGNAL_PATTERNS).1

/-- The inner loop of `extract_tools` over the ids of one category; here the
`seen` set holds bare tool ids. -/
def toolInner (text tcat : String) :
    List String → List (String × List (List RTok)) → List Tool × List String
  | seen, [] => ([], seen)
  | seen, (tid, pat) :: rest =>
    if seen.contains tid then toolInner text tcat seen rest
    else if reSearch pat text then
      let out := toolInner text tcat (seen ++ [tid]) rest
      ({ tool_name := pyTitleCase (pyReplaceCh '_' ' ' tid), tool_category := tcat,
         tool_id := tid } :: out.1, out.2)
    else toolInner text tcat seen rest

/-- The outer loop of `extract_tools` over the categories. -/
def toolOuter (text : String) :
    List String → List (String × List (String × List (List RTok))) → List Tool × List String
  | seen, [] => ([], seen)
  | seen, (tcat, tools) :: rest =>
    let r1 := toolInner text tcat seen tools
    let r2 := toolOuter text r1.2 rest
    (r1.1 ++ r2.1, r2.2)

/-- `extract_tools(title, description)` (the text is not lowercased here;
the patterns are applied case-insensitively instead, as in the source). -/
def extract_tools (title description : String) : List Tool :=
  (toolOuter (title ++ " " ++ description) [] TOOL_PATTERNS).1

/-!
## Persistence (`import_to_db`, lines 576-698)

The three SQLite tables written by the per-posting loop are modelled as
lists of rows; `cursor.lastrowid` is modelled by a fresh-id counter.
Printing and the returned `(inserted, updated)` counters are omitted: only
the state effect is modelled.
-/

/-- One row of the `jobs` table (the columns set by the INSERT of
`import_to_db`; `id` is the SQLite rowid). -/
structure JobRow where
  id : Nat
  source : String
  source_id : String
  source_url : String
  title : String
  company_name : String
  company_name_normalized : String
  company_url : String
  location_raw : String
  location_type : Option String
  location_metro : Option String
  location_state : Option String
  is_remote : Bool
  annual_salary_min : Option Rat
  annual_salary_max : Option Rat
  has_salary : Nat
  compensation_min : Option Rat
  compensation_max : Option Rat
  compensation_interval : Option String
  function_category : String
  seniority_tier : String
  description_raw : String
  has_description : Nat
  company_industry : Option String
  has_ai_mention : Bool
  ai_terms_found : Option (List String)
  is_ai_native_role : Bool
  date_posted : Option String
  date_scraped : String
  last_seen : String
  is_active : Nat
deriving DecidableEq

/-- One row of the `companies` table. -/
structure CompanyRow where
  name : String
  name_normalized : String
  industry : Option String
  is_tech : Nat
  total_job_postings : Nat
  url : String
  updated_at : String
deriving DecidableEq

/-- The database state: the three job tables plus the companies table and
the next fresh rowid. -/
structure DBState where
  jobs : List JobRow
  job_signals : List (Nat × Signal)
  job_tools : List (Nat × Tool)
  companies : List CompanyRow
  nextId : Nat
deriving DecidableEq

/-- One element of the `jobs_data` list handed to `import_to_db` (the
dictionary built by `process_greenhouse_jobs`). -/
structure JobData where
  source_id : String
  source_url : String
  title : String
  location_raw : String
  location_type : Option String
  location_metro : Option String
  location_state : Option String
  is_remote : Bool
  salary_min : Option Rat
  salary_max : Option Rat
  function_category : String
  seniority_tier : String
  description : String
  has_ai_mention : Bool
  ai_terms_found : Option (List String)
  is_ai_native_role : Bool
  date_posted : Option String
  signals : List Signal
  tools : List Tool
deriving DecidableEq

/-- Python truthiness of the salary value (`1 if j["salary_min"] else 0`):
`None` and `0.0` are falsy. -/
def truthySal : Option Rat → Bool
  | none => false
  | some v => v != 0

/-- The key test of the upsert,
`SELECT id FROM jobs WHERE source = ? AND source_id = ?` with source
`"greenhouse"`. -/
def isJobKey (sid : String) (r : JobRow) : Bool :=
  r.source == "greenhouse" && r.source_id == sid

/-- The `job_signals` child rows written for one posting: one row per
signal, or a single `_none` sentinel row when the posting has none. -/
def signalChildRows (jid : Nat) (sigs : List Signal) : List (Nat × Signal) :=
  if sigs.isEmpty then
    [(jid, { signal_type := "_none", signal_id := "_none", signal_value := "_none" })]
  else sigs.map fun s => (jid, s)

/-- The `job_tools` child rows written for one posting. -/
def toolChildRows (jid : Nat) (tools : List Tool) : List (Nat × Tool) :=
  if tools.isEmpty then
    [(jid, { tool_name := "_none", tool_category := "_none", tool_id := "_none" })]
  else tools.map fun t => (jid, t)

/-- The child-row inserts that follow the insert-or-update branch; in the
source they are executed for every posting of the loop, on both branches. -/
def addChildRows (st : DBState) (jid : Nat) (j : JobData) : DBState :=
  { st with
    job_signals := st.job_signals ++ signalChildRows jid j.signals,
    job_tools := st.job_tools ++ toolChildRows jid j.tools }

/-- The row built by the INSERT branch for a new `(source, source_id)`
key. -/
def mkJobRow (rid : Nat) (now company_name company_normalized company_url : String)
    (industry : Option String) (j : JobData) : JobRow :=
  { id := rid
    source := "greenhouse"
    source_id := j.source_id
    source_url := j.source_url
    title := j.title
    company_name := company_name
    company_name_normalized := company_normalized
    company_url := company_url
    location_raw := j.location_raw
    location_type := j.location_type
    location_metro := j.location_metro
    location_state := j.location_state
    is_remote := j.is_remote
    annual_salary_min := j.salary_min
    annual_salary_max := j.salary_max
    has_salary := if truthySal j.salary_min then 1 else 0
    compensation_min := j.salary_min
    compensation_max := j.salary_max
    compensation_interval := if truthySal j.salary_min then some "yearly" else none
    function_category := j.function_category
    seniority_tier := j.seniority_tier
    description_raw := j.description
    has_description := if j.description != "" then 1 else 0
    company_industry := industry
    has_ai_mention := j.has_ai_mention
    ai_terms_found := j.ai_terms_found
    is_ai_native_role := j.is_ai_native_role
    date_posted := j.date_posted
    date_scraped := now
    last_seen := now
    is_active := 1 }

/-- The body of the per-posting loop of `import_to_db`: look the key up; on
a hit run `UPDATE jobs SET last_seen = ?, is_active = 1 WHERE id = ?`, on a
miss insert a full row; then (unconditionally) write the signal and tool
child rows for the posting. -/
def importOne (now company_name company_url : String) (industry : Option String)
    (st : DBState) (j : JobData) : DBState :=
  match st.jobs.find? (isJobKey j.source_id) with
  | some r =>
    let st1 :=
      { st with
        jobs := st.jobs.map fun row =>
          if row.id == r.id then { row with last_seen := now, is_active := 1 } else row }
    addChildRows st1 r.id j
  | none =>
    let row := mkJobRow st.nextId now company_name (pyStrip (pyLower company_name))
      company_url industry j
    let st1 := { st with jobs := st.jobs ++ [row], nextId := st.nextId + 1 }
    addChildRows st1 st.nextId j

/-- The companies upsert that closes an import run. -/
def upsertCompany (st : DBState) (company_name company_url : String)
    (industry : Option String) (now : String) (count : Nat) : DBState :=
  let normalized := pyStrip (pyLower company_name)
  if st.companies.any (fun c => c.name_normalized == normalized) then
    { st with
      companies := st.companies.map fun c =>
        if c.name_normalized == normalized then
          { c with total_job_postings := count, updated_at := now }
        else c }
  else
    { st with
      companies := st.companies ++
        [{ name := company_name, name_normalized := normalized, industry := industry,
           is_tech := 1, total_job_postings := count, url := company_url,
           updated_at := now }] }

/-- `import_to_db(db, jobs_data, company, url, industry, dry_run)`: on a dry
run nothing is written; otherwise every posting goes through `importOne`
and the companies table is upserted. -/
def import_to_db (st : DBState) (jobs_data : List JobData)
    (company_name company_url : String) (industry : Option String) (now : String)
    (dry_run : Bool) : DBState :=
  if dry_run then st
  else
    let st1 := jobs_data.foldl (importOne now company_name company_url industry) st
    upsertCompany st1 company_name company_url industry now jobs_data.length

/-!
## Snapshot selection (`select_snapshots`, wayback_greenhouse.py lines
90-112)
-/

/-- One snapshot record as built by `fetch_cdx_index` (the fields consumed
by `select_snapshots`). -/
structure Snap where
  timestamp : String
  date : String
  year_month : String
  size : Int
  url_template : String
deriving DecidableEq

/-- Gregorian leap year. -/
def isLeap (y : Nat) : Bool :=
  (y % 4 == 0 && y % 100 != 0) || y % 400 == 0

/-- Days in a month. -/
def daysInMonth (y m : Nat) : Nat :=
  if m == 2 then (if isLeap y then 29 else 28)
  else if m == 4 || m == 6 || m == 9 || m == 11 then 30
  else 31

/-- `datetime.strptime(s, "%Y-%m-%d")`: `%Y` is exactly four digits, `%m`
and `%d` are one or two digits, the month is 1-12 and the day valid for the
month, the year at least `datetime.MINYEAR = 1`; anything else raises
`ValueError` (`none`). -/
def parseYMD (s : String) : Option (Nat × Nat × Nat) :=
  match splitOnCh '-' s.data with
  | [ys, ms, ds] =>
    if ys.length == 4 && ys.all Char.isDigit
        && (ms.length == 1 || ms.length == 2) && ms.all Char.isDigit
        && (ds.length == 1 || ds.length == 2) && ds.all Char.isDigit then
      let y := natOfDigits ys
      let m := natOfDigits ms
      let d := natOfDigits ds
      if 1 ≤ y && 1 ≤ m && m ≤ 12 && 1 ≤ d && d ≤ daysInMonth y m then some (y, m, d)
      else none
    else none
  | _ => none

/-- The period key of one snapshot: `f"{dt.year}-Q{quarter}"` for the
quarterly frequency (failing when the date does not parse), the
`year_month` field otherwise. -/
def periodKey (frequency : String) (s : Snap) : Option String :=
  if frequency == "quarterly" then
    (parseYMD s.date).map fun ymd =>
      toString ymd.1 ++ "-Q" ++ toString ((ymd.2.1 - 1) / 3 + 1)
  else some s.year_month

/-- Computable lexicographic `<` on character lists (Python's string
comparison is code-point lexicographic, as is Lean's `List.lt` on
characters; see `listLtB_iff`). -/
def listLtB : List Char → List Char → Bool
  | [], [] => false
  | [], _ :: _ => true
  | _ :: _, [] => false
  | a :: as, b :: bs => if a < b then true else if b < a then false else listLtB as bs

/-- `listLtB` computes `List.lt`, the order underlying the string order. -/
theorem listLtB_iff : ∀ as bs : List Char, listLtB as bs = true ↔ List.lt as bs := by
  intro as
  induction as with
  | nil =>
    intro bs
    cases bs with
    | nil =>
      simp only [listLtB]
      constructor
      · intro h
        exact absurd h (by simp)
      · intro h
        cases h
    | cons b bs =>
      simp only [listLtB]
      constructor
      · intro _
        exact List.lt.nil b bs
      · intro _
        trivial
  | cons a as ih =>
    intro bs
    cases bs with
    | nil =>
      simp only [listLtB]
      constructor
      · intro h
        exact absurd h (by simp)
      · intro h
        cases h
    | cons b bs =>
      simp only [listLtB]
      by_cases hab : a < b
      · simp only [if_pos hab]
        constructor
        · intro _
          exact List.lt.head as bs hab
        · intro _
          trivial
      · simp only [if_neg hab]
        by_cases hba : b < a
        · simp only [if_pos hba]
          constructor
          · intro h
            exact absurd h (by simp)
          · intro h
            cases h with
            | head _ _ h1 => exact absurd h1 hab
            | tail _ h2 _ => exact absurd hba h2
        · simp only [if_neg hba]
          rw [ih bs]
          constructor
          · intro h
            exact List.lt.tail hab hba h
          · intro h
            cases h with
            | head _ _ h1 => exact absurd h1 hab
            | tail _ _ h3 => exact h3

/-- Computable string `≤` (`a ≤ b` is `¬ b < a` for Lean strings, and
Python's `<=` on strings is the same lexicographic order). -/
def tsLeB (a b : String) : Bool :=
  !listLtB b.data a.data

/-- `tsLeB` computes the string order. -/
theorem tsLeB_iff (a b : String) : tsLeB a b = true ↔ a ≤ b := by
  unfold tsLeB
  rw [Bool.not_eq_true', Bool.eq_false_iff, Ne, listLtB_iff, String.le_iff_toList_le,
    ← not_lt]
  exact not_congr (List.lt_iff_lex_lt b.data a.data)

/-- The comparison of both sorts, `key=lambda s: s["timestamp"]`. -/
def snapLe (a b : Snap) : Bool :=
  tsLeB a.timestamp b.timestamp

/-- `snapLe` computes the timestamp order. -/
theorem snapLe_iff (a b : Snap) : snapLe a b = true ↔ a.timestamp ≤ b.timestamp :=
  tsLeB_iff a.timestamp b.timestamp

/-- Stable insertion of a snapshot into an ascending list: the new element
goes after every element with a smaller-or-equal timestamp. -/
def insertTs (a : Snap) : List Snap → List Snap
  | [] => [a]
  | b :: l => if snapLe b a then b :: insertTs a l else a :: b :: l

/-- Python `sorted(..., key=lambda s: s["timestamp"])` / `list.sort`:
timsort is a stable ascending sort, and a stable sort is determined
uniquely by its comparator, so the stable insertion sort below computes the
same list. -/
def pySorted (l : List Snap) : List Snap :=
  l.foldl (fun acc x => insertTs x acc) []

/-- `selected[key] = snap` on the association list modelling the `selected`
dict: replace in place when the key is present, append otherwise. -/
def upsertKey (acc : List (String × Snap)) (k : String) (s : Snap) : List (String × Snap) :=
  if acc.any (fun p => p.1 == k) then
    acc.map fun p => if p.1 == k then (k, s) else p
  else acc ++ [(k, s)]

/-- The selection loop over the (sorted) snapshots, threading the
`selected` dict; `none` when a quarterly date fails to parse. -/
def buildSel (frequency : String) :
    List Snap → List (String × Snap) → Option (List (String × Snap))
  | [], acc => some acc
  | s :: rest, acc =>
    match periodKey frequency s with
    | none => none
    | some k => buildSel frequency rest (upsertKey acc k s)

/-- `select_snapshots(snapshots, frequency)`: sort by timestamp, keep the
last (hence latest) snapshot of each period, return the kept snapshots
sorted by timestamp. -/
def select_snapshots (snapshots : List Snap) (frequency : String) : Option (List Snap) :=
  if snapshots.isEmpty then some []
  else
    match buildSel frequency (pySorted snapshots) [] with
    | none => none
    | some acc => some (pySorted (acc.map Prod.snd))

/-!
## Claims about `parse_location` (C2, C6)
-/

/-- C6: for every raw location string, the tuple returned by
`parse_location` satisfies `is_remote = (location_type = "remote")`, and
whenever `is_remote` is true both the metro and the state are null. -/
theorem parse_location_remote_invariant (s : String) :
    ((parse_location s).is_remote = true ↔ (parse_location s).location_type = some "remote") ∧
    ((parse_location s).is_remote = true →
      (parse_location s).location_metro = none ∧ (parse_location s).location_state = none) := by
  unfold parse_location
  by_cases h1 : s = ""
  · simp [h1]
  · rw [if_neg h1]
    by_cases h2 : REMOTE_INDICATORS.contains (pyStrip (pyLower s)) = true
    · rw [if_pos h2]
      simp
    · rw [if_neg h2]
      have : some "onsite" ≠ some "remote" := by decide
      simp [this]

/-- Witness for C6 at the input `"Remote"`. -/
theorem parse_location_remote_invariant_witness :
    (parse_location "Remote").is_remote = true ∧
    (parse_location "Remote").location_type = some "remote" ∧
    (parse_location "Remote").location_metro = none ∧
    (parse_location "Remote").location_state = none := by
  have h := parse_location_remote_invariant "Remote"
  have hr : (parse_location "Remote").is_remote = true := by decide
  exact ⟨hr, h.1.mp hr, (h.2 hr).1, (h.2 hr).2⟩

/-- C2 counterexample: the empty location string does not match any remote
indicator, yet `parse_location` returns a null `location_type`, not
`"onsite"` as the claim states. -/
theorem parse_location_empty_not_onsite :
    REMOTE_INDICATORS.contains (pyStrip (pyLower "")) = false ∧
    (parse_location "").location_type = none ∧
    (parse_location "").location_type ≠ some "onsite" ∧
    (parse_location "").is_remote = false := by decide

/-- C2 amended: for every NON-EMPTY raw location string that does not match
(after lowercasing and trimming) one of the fixed remote indicators,
`parse_location` returns location type `"onsite"` with `is_remote` false
(even when no metro and no state are resolved); the empty string instead
yields a null location type with `is_remote` false. -/
theorem parse_location_nonempty_nonremote_onsite (s : String) (h1 : s ≠ "")
    (h2 : pyStrip (pyLower s) ∉ REMOTE_INDICATORS) :
    (parse_location s).location_type = some "onsite" ∧ (parse_location s).is_remote = false := by
  unfold parse_location
  rw [if_neg h1, if_neg (by simp [h2])]
  exact ⟨rfl, rfl⟩

/-- Witness for the amended C2 at the unresolvable input `"Gotham"`. -/
theorem parse_location_nonempty_nonremote_onsite_witness :
    (parse_location "Gotham").location_type = some "onsite" ∧
    (parse_location "Gotham").is_remote = false ∧
    (parse_location "Gotham").location_metro = none ∧
    (parse_location "Gotham").location_state = none :=
  ⟨(parse_location_nonempty_nonremote_onsite "Gotham" (by decide) (by decide)).1,
   (parse_location_nonempty_nonremote_onsite "Gotham" (by decide) (by decide)).2,
   by decide, by decide⟩

/-!
## Claim about `extract_salary` (C3)
-/

/-- C3: whenever the first matching salary pattern captures two values and
both normalise (comma stripping, `float`, times 1000 below 1000 — see
`normVal` and `normVal_eq_mul_form`), `extract_salary` returns exactly
`(min, max)` of the two normalised values, so the returned minimum is at
most the returned maximum regardless of the order of appearance. -/
theorem extract_salary_two_value (s g1 g2 : String) (v1 v2 : Rat)
    (h : firstTwoCapture s = some (g1, g2))
    (h1 : normVal g1 = some v1) (h2 : normVal g2 = some v2) :
    extract_salary s = SalResult.range (min v1 v2) (max v1 v2) ∧ min v1 v2 ≤ max v1 v2 := by
  refine ⟨?_, min_le_max⟩
  have hs : s ≠ "" := by
    intro he
    subst he
    have hn : firstTwoCapture "" = none := by decide
    rw [hn] at h
    exact Option.noConfusion h
  unfold extract_salary
  rw [if_neg hs]
  unfold firstTwoCapture at h
  cases hp : searchWith pat1At s.data with
  | some r =>
    rw [hp] at h
    have hr : r = (g1, g2) := Option.some.inj h
    subst hr
    show twoValResult g1 g2 = SalResult.range (min v1 v2) (max v1 v2)
    unfold twoValResult
    rw [h1, h2]
  | none =>
    rw [hp] at h
    have hq : searchWith pat2At s.data = some (g1, g2) := h
    rw [hq]
    show twoValResult g1 g2 = SalResult.range (min v1 v2) (max v1 v2)
    unfold twoValResult
    rw [h1, h2]

/-- Witness for C3 at `"$70K TO $90K"`, matched only by the second,
case-insensitive pattern (uppercase `TO` separator and `K` suffixes): the
extracted range is `(70000, 90000)`. -/
theorem extract_salary_two_value_witness :
    firstTwoCapture "$70K TO $90K" = some ("70", "90") ∧
    extract_salary "$70K TO $90K" = SalResult.range 70000 90000 ∧ (70000 : Rat) ≤ 90000 := by
  have h := extract_salary_two_value "$70K TO $90K" "70" "90" 70000 90000
    (by decide) (by decide) (by decide)
  have hmin : min (70000 : Rat) 90000 = 70000 := by decide
  have hmax : max (70000 : Rat) 90000 = 90000 := by decide
  rw [hmin, hmax] at h
  exact ⟨by decide, h.1, h.2⟩

/-!
## Claims about the classifiers (C4, C5)
-/

/-- Helper: first-match-wins evaluation returns the default when no rule of
the ordered list matches. -/
theorem firstRuleMatch_default (rules : List (List (List RTok) × String)) (dflt x : String)
    (h : ∀ r ∈ rules, reSearch r.1 x = false) :
    firstRuleMatch rules dflt x = dflt := by
  induction rules with
  | nil => rfl
  | cons hd tl ih =>
    obtain ⟨p, v⟩ := hd
    have hp : reSearch p x = false := h (p, v) (List.mem_cons_self _ _)
    simp only [firstRuleMatch, hp, Bool.false_eq_true, if_false]
    exact ih fun r hr => h r (List.mem_cons_of_mem _ hr)

/-- C4: `classify_seniority` is first-match-wins over the ordered
`SENIORITY_RULES`: the title "Senior Director of Engineering" classifies as
`senior_director` although the later, less specific `director` and `senior`
patterns also match it, and every title matching no rule classifies as
`mid`. -/
theorem classify_seniority_spec :
    classify_seniority "Senior Director of Engineering" = "senior_director" ∧
    reSearch [word "director"] (pyLower "Senior Director of Engineering") = true ∧
    reSearch [word "senior"] (pyLower "Senior Director of Engineering") = true ∧
    ∀ t, (∀ r ∈ SENIORITY_RULES, reSearch r.1 (pyLower t) = false) →
      classify_seniority t = "mid" := by
  refine ⟨by decide, by decide, by decide, ?_⟩
  intro t ht
  exact firstRuleMatch_default SENIORITY_RULES "mid" (pyLower t) ht

/-- Witness for C4 at the rule-free title `"Software Engineer"`. -/
theorem classify_seniority_spec_witness :
    classify_seniority "Software Engineer" = "mid" :=
  classify_seniority_spec.2.2.2 "Software Engineer" (by decide)

/-- C5: a department whose lowercased, trimmed label is in the fixed table
decides the function without consulting the title (department
"Confidential" yields `other` for every title); a null department falls
back to the ordered title rules (title "Staff Software Engineer" yields
`engineering`); and `other` is returned when neither the table nor any
title rule matches. -/
theorem classify_function_spec :
    (∀ title, classify_function (some "Confidential") title = "other") ∧
    classify_function none "Staff Software Engineer" = "engineering" ∧
    ∀ d title,
      (∀ s, d = some s → s ≠ "" →
        List.lookup (pyStrip (pyLower s)) DEPARTMENT_TO_FUNCTION = none) →
      (∀ r ∈ TITLE_TO_FUNCTION, reSearch r.1 (pyLower title) = false) →
      classify_function d title = "other" := by
  refine ⟨?_, by decide, ?_⟩
  · intro title
    have h2 : List.lookup (pyStrip (pyLower "Confidential")) DEPARTMENT_TO_FUNCTION =
        some "other" := by decide
    simp only [classify_function]
    rw [if_pos (by decide : ("Confidential" : String) ≠ ""), h2]
  · intro d title hd ht
    have htitle : titleScan title = "other" :=
      firstRuleMatch_default TITLE_TO_FUNCTION "other" (pyLower title) ht
    cases d with
    | none => exact htitle
    | some s =>
      simp only [classify_function]
      by_cases hs : s ≠ ""
      · rw [if_pos hs, hd s rfl hs]
        exact htitle
      · rw [if_neg hs]
        exact htitle

/-- Witness for C5 at the untabulated department `"Zzz"` with the rule-free
title `"Wizard"`, plus the Confidential example of the claim. -/
theorem classify_function_spec_witness :
    classify_function (some "Zzz") "Wizard" = "other" ∧
    classify_function (some "Confidential") "Staff Software Engineer" = "other" :=
  ⟨classify_function_spec.2.2 (some "Zzz") "Wizard"
      (fun s hs _ => by cases hs; decide) (by decide),
   classify_function_spec.1 "Staff Software Engineer"⟩

/-!
## Claims about `detect_ai` (C7, C9)
-/

/-- C9: `is_ai_native_role` is a function of the title alone: two calls of
`detect_ai` with equal titles and arbitrary different descriptions return
the same native-role flag. -/
theorem detect_ai_native_title_only (t d1 d2 : String) :
    (detect_ai t d1).2.2 = (detect_ai t d2).2.2 := rfl

/-- C7 counterexample: on title `"AI"` with an empty description the only
matched vocabulary term is the bare `AI` alternative, which lies outside
the capturing group, so `ai_terms_found` collects the empty string — not
the term `"AI"` — refuting "collects exactly the distinct matched
vocabulary terms" as stated. -/
theorem detect_ai_bare_ai_empty_capture :
    (detect_ai "AI" "").1 = true ∧
    (detect_ai "AI" "").2.1 = some [""] ∧
    "AI" ∉ ([""] : List String) := by decide

/-- C7 amended: `has_ai_mention` is true iff the findall scan of the broad
vocabulary pattern over title+description finds a match; `ai_terms_found`
is null iff there is none, and otherwise holds exactly the distinct
captured group texts (matches of the bare `\bAI\b` alternative, which is
outside the group, contribute an empty string). -/
theorem detect_ai_terms_spec (title description : String) :
    ((detect_ai title description).1 = true ↔
      findAll AI_TERMS (title ++ " " ++ description) ≠ []) ∧
    ((detect_ai title description).2.1 = none ↔
      findAll AI_TERMS (title ++ " " ++ description) = []) ∧
    ∀ l, (detect_ai title description).2.1 = some l →
      l.Nodup ∧ ∀ x, x ∈ l ↔ x ∈ findAll AI_TERMS (title ++ " " ++ description) := by
  cases hm : findAll AI_TERMS (title ++ " " ++ description) with
  | nil =>
    refine ⟨?_, ?_, ?_⟩ <;> simp [detect_ai, hm]
  | cons a l =>
    refine ⟨by simp [detect_ai, hm], by simp [detect_ai, hm], ?_⟩
    intro l2 hl2
    simp only [detect_ai, hm, List.isEmpty_cons, Bool.not_false, if_true, Option.some.injEq] at hl2
    subst hl2
    exact ⟨List.nodup_dedup _, fun x => List.mem_dedup⟩

/-- Witness for the amended C7 at title `"AI"`, empty description. -/
theorem detect_ai_terms_spec_witness :
    findAll AI_TERMS ("AI" ++ " " ++ "") ≠ [] ∧
    (detect_ai "AI" "").1 = true ∧
    ([""] : List String).Nodup ∧
    ∀ x, x ∈ ([""] : List String) ↔ x ∈ findAll AI_TERMS ("AI" ++ " " ++ "") := by
  have h := detect_ai_terms_spec "AI" ""
  have hm : (detect_ai "AI" "").2.1 = some [""] := by decide
  have h3 := h.2.2 [""] hm
  exact ⟨by decide, h.1.mpr (by decide), h3.1, h3.2⟩

/-!
## Claim about the taxonomy taggers (C8)
-/

/-- Helper: the signal ids produced by the inner loop form a sublist of the
ids of the taxonomy slice it walks, whatever the `seen` state. -/
theorem sigInner_ids_sublist (text stype : String) :
    ∀ (tags : List (String × List (List RTok))) (seen : List String),
      ((sigInner text stype seen tags).1.map Signal.signal_id).Sublist (tags.map Prod.fst) := by
  intro tags
  induction tags with
  | nil =>
    intro seen
    simp [sigInner]
  | cons hd tl ih =>
    intro seen
    obtain ⟨sid, pat⟩ := hd
    unfold sigInner
    by_cases h1 : seen.contains (stype ++ ":" ++ sid) = true
    · rw [if_pos h1]
      exact (ih seen).cons sid
    · rw [if_neg h1]
      by_cases h2 : reSearch pat text = true
      · rw [if_pos h2]
        exact (ih (seen ++ [stype ++ ":" ++ sid])).cons₂ sid
      · rw [if_neg h2]
        exact (ih seen).cons sid

/-- Helper: the signal ids produced by the outer loop form a sublist of all
ids of the taxonomy, whatever the `seen` state. -/
theorem sigOuter_ids_sublist (text : String) :
    ∀ (cats : List (String × List (String × List (List RTok)))) (seen : List String),
      ((sigOuter text seen cats).1.map Signal.signal_id).Sublist
        ((cats.map fun c => c.2.map Prod.fst).flatten) := by
  intro cats
  induction cats with
  | nil =>
    intro seen
    simp [sigOuter]
  | cons hd tl ih =>
    intro seen
    obtain ⟨stype, sigs⟩ := hd
    unfold sigOuter
    simp only [List.map_cons, List.flatten, List.map_append]
    exact (sigInner_ids_sublist text stype sigs seen).append
      (ih (sigInner text stype seen sigs).2)

/-- Helper: the tool ids produced by the inner loop form a sublist of the
ids of the taxonomy slice it walks. -/
theorem toolInner_ids_sublist (text tcat : String) :
    ∀ (tags : List (String × List (List RTok))) (seen : List String),
      ((toolInner text tcat seen tags).1.map Tool.tool_id).Sublist (tags.map Prod.fst) := by
  intro tags
  induction tags with
  | nil =>
    intro seen
    simp [toolInner]
  | cons hd tl ih =>
    intro seen
    obtain ⟨tid, pat⟩ := hd
    unfold toolInner
    by_cases h1 : seen.contains tid = true
    · rw [if_pos h1]
      exact (ih seen).cons tid
    · rw [if_neg h1]
      by_cases h2 : reSearch pat text = true
      · rw [if_pos h2]
        exact (ih (seen ++ [tid])).cons₂ tid
      · rw [if_neg h2]
        exact (ih seen).cons tid

/-- Helper: the tool ids produced by the outer loop form a sublist of all
ids of the taxonomy. -/
theorem toolOuter_ids_sublist (text : String) :
    ∀ (cats : List (String × List (String × List (List RTok)))) (seen : List String),
      ((toolOuter text seen cats).1.map Tool.tool_id).Sublist
        ((cats.map fun c => c.2.map Prod.fst).flatten) := by
  intro cats
  induction cats with
  | nil =>
    intro seen
    simp [toolOuter]
  | cons hd tl ih =>
    intro seen
    obtain ⟨tcat, tools⟩ := hd
    unfold toolOuter
    simp only [List.map_cons, List.flatten, List.map_append]
    exact (toolInner_ids_sublist text tcat tools seen).append
      (ih (toolInner text tcat seen tools).2)

/-- The signal ids of the fixed taxonomy are globally distinct. -/
theorem signal_ids_nodup : ((SIGNAL_PATTERNS.map fun c => c.2.map Prod.fst).flatten).Nodup := by
  decide

/-- The tool ids of the fixed taxonomy are globally distinct. -/
theorem tool_ids_nodup : ((TOOL_PATTERNS.map fun c => c.2.map Prod.fst).flatten).Nodup := by
  decide

/-- C8: for every title and description, the tag lists returned by
`extract_signals` and `extract_tools` contain at most one tag per distinct
tag id (their id projections are duplicate-free), even when a pattern
matches the text multiple times. -/
theorem extract_tags_dedup_by_id (title description : String) :
    ((extract_signals title description).map Signal.signal_id).Nodup ∧
    ((extract_tools title description).map Tool.tool_id).Nodup :=
  ⟨signal_ids_nodup.sublist
      (sigOuter_ids_sublist (pyLower (title ++ " " ++ description)) SIGNAL_PATTERNS []),
   tool_ids_nodup.sublist
      (toolOuter_ids_sublist (title ++ " " ++ description) TOOL_PATTERNS [])⟩

/-!
## Claim about the persistence upsert (C1)
-/

/-- Helper: when the filter keeps exactly one element, `find?` returns
it. -/
theorem find?_of_filter_single {α : Type} (p : α → Bool) :
    ∀ (l : List α) (a : α), l.filter p = [a] → l.find? p = some a := by
  intro l
  induction l with
  | nil =>
    intro a h
    simp at h
  | cons hd tl ih =>
    intro a h
    by_cases hp : p hd = true
    · rw [List.filter_cons_of_pos hp] at h
      rw [List.find?_cons_of_pos tl hp]
      rw [List.cons_eq_cons] at h
      rw [h.1]
    · rw [List.filter_cons_of_neg hp] at h
      rw [List.find?_cons_of_neg tl hp]
      exact ih a h

/-- Helper: the companies upsert leaves the job tables untouched. -/
theorem upsertCompany_job_tables (st : DBState) (cn cu : String) (ind : Option String)
    (now : String) (count : Nat) :
    (upsertCompany st cn cu ind now count).jobs = st.jobs ∧
    (upsertCompany st cn cu ind now count).job_signals = st.job_signals ∧
    (upsertCompany st cn cu ind now count).job_tools = st.job_tools := by
  simp only [upsertCompany]
  split
  · exact ⟨rfl, rfl, rfl⟩
  · exact ⟨rfl, rfl, rfl⟩

/-- Helper: the bookkeeping update of a row does not change the upsert
key. -/
theorem isJobKey_update (sid now : String) (rid : Nat) (row : JobRow) :
    isJobKey sid (if row.id == rid then { row with last_seen := now, is_active := 1 } else row)
      = isJobKey sid row := by
  by_cases h : row.id == rid
  · rw [if_pos h]
    rfl
  · rw [if_neg h]

/-- Helper: filtering by the upsert key commutes with the bookkeeping
update of the rows. -/
theorem filter_map_key (sid now : String) (rid : Nat) :
    ∀ l : List JobRow,
      (l.map fun row =>
          if row.id == rid then { row with last_seen := now, is_active := 1 } else row).filter
        (isJobKey sid)
      = (l.filter (isJobKey sid)).map fun row =>
          if row.id == rid then { row with last_seen := now, is_active := 1 } else row := by
  intro l
  induction l with
  | nil => rfl
  | cons hd tl ih =>
    simp only [List.map_cons]
    by_cases hk : isJobKey sid hd = true
    · have hk2 : isJobKey sid
          (if hd.id == rid then { hd with last_seen := now, is_active := 1 } else hd) = true := by
        rw [isJobKey_update]
        exact hk
      rw [List.filter_cons_of_pos hk2, List.filter_cons_of_pos hk, List.map_cons, ih]
    · have hk2 : ¬ isJobKey sid
          (if hd.id == rid then { hd with last_seen := now, is_active := 1 } else hd) = true := by
        rw [isJobKey_update]
        exact hk
      rw [List.filter_cons_of_neg hk2, List.filter_cons_of_neg hk, ih]

/-- C1 amended: a later import of a posting whose `(source, source_id)` key
is already persisted leaves exactly one jobs row for the key, equal to the
stored row with only `last_seen` and `is_active` refreshed (every
classification field keeps the first import's value, whatever the new
posting carries) — but the signal and tool child rows (including sentinel
rows) are appended again on this import, rather than only on the first
insert of the key. -/
theorem import_existing_key_updates_row_but_appends_children
    (st : DBState) (j : JobData) (r : JobRow)
    (now company_name company_url : String) (industry : Option String)
    (h : st.jobs.filter (isJobKey j.source_id) = [r]) :
    (import_to_db st [j] company_name company_url industry now false).jobs.filter
        (isJobKey j.source_id) = [{ r with last_seen := now, is_active := 1 }] ∧
    (import_to_db st [j] company_name company_url industry now false).jobs.length
        = st.jobs.length ∧
    (import_to_db st [j] company_name company_url industry now false).job_signals
        = st.job_signals ++ signalChildRows r.id j.signals ∧
    (import_to_db st [j] company_name company_url industry now false).job_tools
        = st.job_tools ++ toolChildRows r.id j.tools := by
  have hfind : st.jobs.find? (isJobKey j.source_id) = some r :=
    find?_of_filter_single _ st.jobs r h
  have hstep : import_to_db st [j] company_name company_url industry now false =
      upsertCompany (importOne now company_name company_url industry st j)
        company_name company_url industry now 1 := rfl
  have hone : importOne now company_name company_url industry st j =
      addChildRows
        { st with
          jobs := st.jobs.map fun row =>
            if row.id == r.id then { row with last_seen := now, is_active := 1 } else row }
        r.id j := by
    unfold importOne
    rw [hfind]
  have hu := upsertCompany_job_tables (importOne now company_name company_url industry st j)
    company_name company_url industry now 1
  rw [hstep, hu.1, hu.2.1, hu.2.2, hone]
  refine ⟨?_, ?_, rfl, rfl⟩
  · show (st.jobs.map fun row =>
        if row.id == r.id then { row with last_seen := now, is_active := 1 } else row).filter
        (isJobKey j.source_id) = _
    rw [filter_map_key j.source_id now r.id st.jobs, h]
    simp only [List.map_cons, List.map_nil]
    rw [if_pos (beq_self_eq_true r.id)]
  · show (st.jobs.map fun row =>
        if row.id == r.id then { row with last_seen := now, is_active := 1 } else row).length
        = st.jobs.length
    exact List.length_map st.jobs _

/-- Concrete posting for the C1 exhibits: same key as `exRow`, changed
title/classification inputs, no detected signals or tools. -/
def exJob : JobData :=
  { source_id := "42", source_url := "https://x.example/jobs/42", title := "New Title",
    location_raw := "", location_type := none, location_metro := none,
    location_state := none, is_remote := false, salary_min := none, salary_max := none,
    function_category := "engineering", seniority_tier := "senior", description := "new text",
    has_ai_mention := false, ai_terms_found := none, is_ai_native_role := false,
    date_posted := none, signals := [], tools := [] }

/-- Concrete persisted row for the C1 exhibits (first import's
classification). -/
def exRow : JobRow :=
  { id := 1, source := "greenhouse", source_id := "42",
    source_url := "https://x.example/jobs/42", title := "Old Title",
    company_name := "Acme", company_name_normalized := "acme",
    company_url := "https://acme.example", location_raw := "",
    location_type := some "onsite", location_metro := none, location_state := none,
    is_remote := false, annual_salary_min := none, annual_salary_max := none,
    has_salary := 0, compensation_min := none, compensation_max := none,
    compensation_interval := none, function_category := "sales", seniority_tier := "vp",
    description_raw := "old text", has_description := 1, company_industry := none,
    has_ai_mention := false, ai_terms_found := none, is_ai_native_role := false,
    date_posted := none, date_scraped := "2024-01-01 00:00:00",
    last_seen := "2024-01-01 00:00:00", is_active := 1 }

/-- Concrete database holding exactly the row `exRow` and no child rows. -/
def exDB : DBState :=
  { jobs := [exRow], job_signals := [], job_tools := [], companies := [], nextId := 2 }

/-- C1 counterexample: importing a posting whose key is already persisted
DOES write signal and tool child rows (here the `_none` sentinel rows),
refuting "no signal or tool child rows (including sentinel rows) are
written for it". -/
theorem import_existing_key_writes_children_counterexample :
    exDB.jobs.filter (isJobKey exJob.source_id) = [exRow] ∧
    (import_to_db exDB [exJob] "Acme" "https://acme.example" none
        "2024-02-01 00:00:00" false).job_signals ≠ exDB.job_signals ∧
    (import_to_db exDB [exJob] "Acme" "https://acme.example" none
        "2024-02-01 00:00:00" false).job_tools ≠ exDB.job_tools := by decide

/-- Witness for the amended C1 at the concrete database `exDB`. -/
theorem import_existing_key_updates_row_but_appends_children_witness :
    (import_to_db exDB [exJob] "Acme" "https://acme.example" none
        "2024-02-01 00:00:00" false).jobs.filter (isJobKey exJob.source_id)
      = [{ exRow with last_seen := "2024-02-01 00:00:00", is_active := 1 }] ∧
    (import_to_db exDB [exJob] "Acme" "https://acme.example" none
        "2024-02-01 00:00:00" false).jobs.length = exDB.jobs.length ∧
    (import_to_db exDB [exJob] "Acme" "https://acme.example" none
        "2024-02-01 00:00:00" false).job_signals
      = exDB.job_signals ++ signalChildRows exRow.id exJob.signals ∧
    (import_to_db exDB [exJob] "Acme" "https://acme.example" none
        "2024-02-01 00:00:00" false).job_tools
      = exDB.job_tools ++ toolChildRows exRow.id exJob.tools :=
  import_existing_key_updates_row_but_appends_children exDB exJob exRow
    "2024-02-01 00:00:00" "Acme" "https://acme.example" none (by decide)

/-!
## Claim about `select_snapshots` (C10)
-/

/-- Helper: `snapLe` is total. -/
theorem snapLe_total (a b : Snap) (h : ¬ snapLe b a = true) : snapLe a b = true := by
  rw [snapLe_iff] at h ⊢
  exact le_of_not_le h

/-- Helper: inserting permutes to consing. -/
theorem insertTs_perm (a : Snap) : ∀ l : List Snap, List.Perm (insertTs a l) (a :: l) := by
  intro l
  induction l with
  | nil => exact List.Perm.refl _
  | cons b t ih =>
    unfold insertTs
    by_cases h : snapLe b a = true
    · rw [if_pos h]
      exact (ih.cons b).trans (List.Perm.swap a b t)
    · rw [if_neg h]

/-- Helper: the insertion fold permutes to appending. -/
theorem foldl_insert_perm :
    ∀ l acc : List Snap, List.Perm (l.foldl (fun acc x => insertTs x acc) acc) (acc ++ l) := by
  intro l
  induction l with
  | nil =>
    intro acc
    simp
  | cons x t ih =>
    intro acc
    simp only [List.foldl_cons]
    exact ((ih (insertTs x acc)).trans
      (((insertTs_perm x acc).append_right t).trans List.perm_middle.symm))

/-- `pySorted` permutes its input. -/
theorem pySorted_perm (l : List Snap) : List.Perm (pySorted l) l := by
  have h := foldl_insert_perm l []
  simpa [pySorted] using h

/-- Helper: `snapLe` is transitive. -/
theorem snapLe_trans {a b c : Snap} (h1 : snapLe a b = true) (h2 : snapLe b c = true) :
    snapLe a c = true := by
  rw [snapLe_iff] at h1 h2 ⊢
  exact le_trans h1 h2

/-- Helper: insertion preserves ascending order. -/
theorem insertTs_sorted (a : Snap) :
    ∀ l, List.Pairwise (fun x y => snapLe x y = true) l →
      List.Pairwise (fun x y => snapLe x y = true) (insertTs a l) := by
  intro l
  induction l with
  | nil =>
    intro _
    simp [insertTs]
  | cons b t ih =>
    intro hp
    rw [List.pairwise_cons] at hp
    unfold insertTs
    by_cases h : snapLe b a = true
    · rw [if_pos h]
      rw [List.pairwise_cons]
      refine ⟨?_, ih hp.2⟩
      intro y hy
      rcases List.mem_cons.mp ((insertTs_perm a t).mem_iff.mp hy) with hya | hyt
      · rw [hya]
        exact h
      · exact hp.1 y hyt
    · rw [if_neg h]
      rw [List.pairwise_cons]
      refine ⟨?_, List.pairwise_cons.mpr hp⟩
      intro y hy
      rcases List.mem_cons.mp hy with hyb | hyt
      · rw [hyb]
        exact snapLe_total a b h
      · exact snapLe_trans (snapLe_total a b h) (hp.1 y hyt)

/-- `pySorted` sorts ascending by timestamp. -/
theorem pySorted_sorted (l : List Snap) :
    List.Pairwise (fun x y => snapLe x y = true) (pySorted l) := by
  have hgen : ∀ (m acc : List Snap), List.Pairwise (fun x y => snapLe x y = true) acc →
      List.Pairwise (fun x y => snapLe x y = true)
        (m.foldl (fun acc x => insertTs x acc) acc) := by
    intro m
    induction m with
    | nil =>
      intro acc h
      exact h
    | cons x t ih =>
      intro acc h
      exact ih (insertTs x acc) (insertTs_sorted x acc h)
  exact hgen l [] List.Pairwise.nil

/-- Helper: membership after a dict update. -/
theorem mem_upsertKey (acc : List (String × Snap)) (k : String) (s : Snap)
    (p : String × Snap) (hp : p ∈ upsertKey acc k s) : p ∈ acc ∨ p = (k, s) := by
  unfold upsertKey at hp
  by_cases hx : (acc.any fun q => q.1 == k) = true
  · rw [if_pos hx] at hp
    rcases List.mem_map.mp hp with ⟨q, hq, hfq⟩
    by_cases hqk : q.1 == k
    · right
      rw [← hfq, if_pos hqk]
    · left
      rw [← hfq, if_neg hqk]
      exact hq
  · rw [if_neg hx] at hp
    rcases List.mem_append.mp hp with h | h
    · exact Or.inl h
    · right
      rw [List.mem_singleton] at h
      exact h

/-- Helper: the only entry of a dict update carrying the updated key is the
new binding. -/
theorem mem_upsertKey_key_eq (acc : List (String × Snap)) (k : String) (s : Snap)
    (p : String × Snap) (hp : p ∈ upsertKey acc k s) (hk : p.1 = k) : p = (k, s) := by
  unfold upsertKey at hp
  by_cases hx : (acc.any fun q => q.1 == k) = true
  · rw [if_pos hx] at hp
    rcases List.mem_map.mp hp with ⟨q, hq, hfq⟩
    by_cases hqk : q.1 == k
    · rw [← hfq, if_pos hqk]
    · exfalso
      rw [← hfq, if_neg hqk] at hk
      exact hqk (by rw [hk]; exact beq_self_eq_true k)
  · rw [if_neg hx] at hp
    rcases List.mem_append.mp hp with h | h
    · exfalso
      rw [List.any_eq_true] at hx
      exact hx ⟨p, h, by rw [hk]; exact beq_self_eq_true k⟩
    · rw [List.mem_singleton] at h
      exact h

/-- Helper: a dict update keeps the keys duplicate-free. -/
theorem upsertKey_keys_nodup (acc : List (String × Snap)) (k : String) (s : Snap)
    (h : (acc.map Prod.fst).Nodup) : ((upsertKey acc k s).map Prod.fst).Nodup := by
  unfold upsertKey
  by_cases hx : (acc.any fun q => q.1 == k) = true
  · rw [if_pos hx]
    have hkeys : ((acc.map fun q => if q.1 == k then (k, s) else q).map Prod.fst)
        = acc.map Prod.fst := by
      rw [List.map_map]
      apply List.map_congr_left
      intro q _
      by_cases hqk : q.1 == k
      · simp only [Function.comp_apply, if_pos hqk]
        exact (eq_of_beq hqk).symm
      · simp only [Function.comp_apply, if_neg hqk]
    rw [hkeys]
    exact h
  · rw [if_neg hx]
    rw [List.map_append, List.nodup_append]
    refine ⟨h, List.nodup_singleton k, ?_⟩
    intro a ha hb
    rw [List.map_cons, List.map_nil, List.mem_singleton] at hb
    rcases List.mem_map.mp ha with ⟨q, hq, hfq⟩
    apply hx
    rw [List.any_eq_true]
    exact ⟨q, hq, by rw [hfq, hb]; exact beq_self_eq_true k⟩

/-- Helper: a dict update keeps every value consistent with its key. -/
theorem upsertKey_kv (freq : String) (acc : List (String × Snap)) (k : String) (s : Snap)
    (hacc : ∀ p ∈ acc, periodKey freq p.2 = some p.1) (hk : periodKey freq s = some k) :
    ∀ p ∈ upsertKey acc k s, periodKey freq p.2 = some p.1 := by
  intro p hp
  rcases mem_upsertKey acc k s p hp with h | h
  · exact hacc p h
  · rw [h]
    exact hk

/-- Helper: the selection loop over a sorted snapshot list yields an
association list with duplicate-free keys, key-consistent values drawn from
the input (or the incoming accumulator), each value maximal in timestamp among
the list's snapshots of its key. -/
theorem buildSel_spec (freq : String) :
    ∀ (l : List Snap) (acc res : List (String × Snap)),
      buildSel freq l acc = some res →
      List.Pairwise (fun x y => snapLe x y = true) l →
      (acc.map Prod.fst).Nodup →
      (∀ p ∈ acc, periodKey freq p.2 = some p.1) →
      ((res.map Prod.fst).Nodup ∧
       (∀ p ∈ res, periodKey freq p.2 = some p.1) ∧
       (∀ p ∈ res, p ∈ acc ∨ p.2 ∈ l) ∧
       (∀ p ∈ res, ∀ x ∈ l, periodKey freq x = some p.1 →
         x.timestamp ≤ p.2.timestamp)) := by
  intro l
  induction l with
  | nil =>
    intro acc res h _ hnd hkv
    have hres : acc = res := Option.some.inj h
    subst hres
    refine ⟨hnd, hkv, fun p hp => Or.inl hp, fun p _ x hx => absurd hx (List.not_mem_nil x)⟩
  | cons s rest ih =>
    intro acc res h hl hnd hkv
    rw [List.pairwise_cons] at hl
    unfold buildSel at h
    cases hk : periodKey freq s with
    | none =>
      rw [hk] at h
      exact Option.noConfusion h
    | some k =>
      rw [hk] at h
      have spec := ih (upsertKey acc k s) res h hl.2
        (upsertKey_keys_nodup acc k s hnd) (upsertKey_kv freq acc k s hkv hk)
      refine ⟨spec.1, spec.2.1, ?_, ?_⟩
      · intro p hp
        rcases spec.2.2.1 p hp with hmem | hrest
        · rcases mem_upsertKey acc k s p hmem with h1 | h1
          · exact Or.inl h1
          · right
            rw [h1]
            exact List.mem_cons_self s rest
        · exact Or.inr (List.mem_cons_of_mem s hrest)
      · intro p hp x hx hpk
        rcases List.mem_cons.mp hx with hxs | hxr
        · have hkx : periodKey freq x = some k := by
            rw [hxs]
            exact hk
          have hkp : k = p.1 := Option.some.inj (hkx.symm.trans hpk)
          rcases spec.2.2.1 p hp with hmem | hrest
          · have hps : p = (k, s) := mem_upsertKey_key_eq acc k s p hmem hkp.symm
            rw [hxs, hps]
          · have hle := hl.1 p.2 hrest
            rw [snapLe_iff] at hle
            rw [hxs]
            exact hle
        · exact spec.2.2.2 p hp x hxr hpk

/-- C10: for every snapshot list and frequency in {monthly, quarterly},
when `select_snapshots` succeeds it returns at most one snapshot per
calendar period (year-month resp. year-quarter, the `periodKey`), each
returned snapshot comes from the input and has the greatest timestamp among
the input snapshots of its period, and the result is sorted in ascending
timestamp order. -/
theorem select_snapshots_spec (snapshots : List Snap) (frequency : String)
    (out : List Snap) (_hfreq : frequency = "monthly" ∨ frequency = "quarterly")
    (h : select_snapshots snapshots frequency = some out) :
    List.Pairwise (fun a b => periodKey frequency a ≠ periodKey frequency b) out ∧
    (∀ s ∈ out, s ∈ snapshots ∧
      ∀ s2 ∈ snapshots, periodKey frequency s2 = periodKey frequency s →
        s2.timestamp ≤ s.timestamp) ∧
    List.Pairwise (fun a b => a.timestamp ≤ b.timestamp) out := by
  unfold select_snapshots at h
  by_cases he : snapshots.isEmpty = true
  · rw [if_pos he] at h
    have hout : ([] : List Snap) = out := Option.some.inj h
    subst hout
    exact ⟨List.Pairwise.nil, fun s hs => absurd hs (List.not_mem_nil s), List.Pairwise.nil⟩
  · rw [if_neg he] at h
    cases hb : buildSel frequency (pySorted snapshots) [] with
    | none =>
      rw [hb] at h
      exact Option.noConfusion h
    | some acc =>
      rw [hb] at h
      have hout : pySorted (acc.map Prod.snd) = out := Option.some.inj h
      have spec := buildSel_spec frequency (pySorted snapshots) [] acc hb
        (pySorted_sorted snapshots) (by simp) (by simp)
      have hperm : List.Perm out (acc.map Prod.snd) := hout ▸ pySorted_perm (acc.map Prod.snd)
      refine ⟨?_, ?_, ?_⟩
      · have hkeys : List.Pairwise (fun p q : String × Snap => p.1 ≠ q.1) acc :=
          List.pairwise_map.mp spec.1
        have hvals : List.Pairwise
            (fun a b => periodKey frequency a ≠ periodKey frequency b)
            (acc.map Prod.snd) := by
          rw [List.pairwise_map]
          refine hkeys.imp_of_mem ?_
          intro p q hp hq hne
          rw [spec.2.1 p hp, spec.2.1 q hq]
          intro hcon
          exact hne (Option.some.inj hcon)
        exact (hperm.pairwise_iff fun h => h.symm).mpr hvals
      · intro s hs
        rcases List.mem_map.mp (hperm.mem_iff.mp hs) with ⟨p, hpacc, hps⟩
        have hsrc : p.2 ∈ snapshots := by
          rcases spec.2.2.1 p hpacc with hc | hc
          · exact absurd hc (List.not_mem_nil p)
          · exact (pySorted_perm snapshots).mem_iff.mp hc
        refine ⟨hps ▸ hsrc, ?_⟩
        intro s2 hs2 hpk
        have hx : s2 ∈ pySorted snapshots := (pySorted_perm snapshots).mem_iff.mpr hs2
        have hk2 : periodKey frequency s2 = some p.1 := by
          rw [hpk, ← hps]
          exact spec.2.1 p hpacc
        have := spec.2.2.2 p hpacc s2 hx hk2
        rw [hps] at this
        exact this
      · have := pySorted_sorted (acc.map Prod.snd)
        rw [hout] at this
        exact this.imp fun hxy => (snapLe_iff _ _).mp hxy

/-- Concrete snapshots for the C10 witness: two January snapshots and the
later one wins. -/
def exSnapA : Snap :=
  { timestamp := "20200115120000", date := "2020-01-15", year_month := "2020-01",
    size := 0, url_template := "boards.greenhouse.io/x" }

/-- The later concrete snapshot of the same month. -/
def exSnapB : Snap :=
  { timestamp := "20200120060000", date := "2020-01-20", year_month := "2020-01",
    size := 0, url_template := "boards.greenhouse.io/x" }

/-- Witness for C10 at the two-snapshot list: one snapshot per month, the
latest of the month. -/
theorem select_snapshots_spec_witness :
    select_snapshots [exSnapA, exSnapB] "monthly" = some [exSnapB] ∧
    (List.Pairwise (fun a b => periodKey "monthly" a ≠ periodKey "monthly" b) [exSnapB] ∧
     (∀ s ∈ [exSnapB], s ∈ [exSnapA, exSnapB] ∧
       ∀ s2 ∈ [exSnapA, exSnapB], periodKey "monthly" s2 = periodKey "monthly" s →
         s2.timestamp ≤ s.timestamp) ∧
     List.Pairwise (fun a b => a.timestamp ≤ b.timestamp) [exSnapB]) :=
  ⟨by decide,
   select_snapshots_spec [exSnapA, exSnapB] "monthly" [exSnapB] (Or.inl rfl) (by decide)⟩

end Fieldwork
